import Mathlib

/-!
Verification of the crustynab core: the calendar week-partitioning algorithm
(`src/calendar_weeks.rs`) and the ledger aggregation pipeline (`src/report.rs`).

Modelling conventions:
* `chrono::NaiveDate` is modelled by `Date`, a (year, 0-based ordinal day) pair,
  mirroring chrono's internal year/ordinal representation.  `Date.toRD` maps a
  date to its proleptic-Gregorian day number (0 = January 1 of year 1), the
  standard rata-die encoding; date ordering, subtraction and weekday all factor
  through it exactly as chrono's do.
* Machine integers (`i32`, `i64`, `u32`, `usize`) are modelled by `ℤ`/`ℕ`; none
  of the modelled quantities can overflow their machine type.
* `f64` amounts obtained from exact `i64 / 1000.0` divisions are modelled by `ℚ`.
* Polars data frames are modelled row-major as lists of row structures; `filter`,
  `group_by`+`sum`, left `join`, `fill_null` and `sort` are given their
  documented relational semantics (sorting modelled by insertion sort).
* `anyhow::Result` is modelled by `Option` (`none` = the error branch).
-/

set_option maxRecDepth 8000

namespace Crustynab

/-! ## Gregorian calendar arithmetic -/

/-- Proleptic-Gregorian leap-year rule (as used by `chrono`). -/
def isLeap (y : ℤ) : Bool := (y % 4 == 0 && y % 100 != 0) || (y % 400 == 0)

def daysInYear (y : ℤ) : ℕ := if isLeap y then 366 else 365

/-- 1 in a leap year, 0 otherwise. -/
def leapDay (y : ℤ) : ℕ := if isLeap y then 1 else 0

/-- Cumulative month lengths given the leap-day count `L` of the year
(`m = 13` gives the total number of days of the year). -/
def monthStartAux (L : ℕ) (m : ℕ) : ℕ :=
  match m with
  | 0 => 0
  | 1 => 0
  | 2 => 31
  | 3 => 59 + L
  | 4 => 90 + L
  | 5 => 120 + L
  | 6 => 151 + L
  | 7 => 181 + L
  | 8 => 212 + L
  | 9 => 243 + L
  | 10 => 273 + L
  | 11 => 304 + L
  | 12 => 334 + L
  | _ => 365 + L

/-- 0-based ordinal of the first day of month `m` within year `y`. -/
def monthStart (y : ℤ) (m : ℕ) : ℕ := monthStartAux (leapDay y) m

/-- Month (1..12) containing ordinal `o`, given the leap-day count `L`. -/
def monthOfOrdinalAux (L : ℕ) (o : ℕ) : ℕ :=
  if o < monthStartAux L 2 then 1
  else if o < monthStartAux L 3 then 2
  else if o < monthStartAux L 4 then 3
  else if o < monthStartAux L 5 then 4
  else if o < monthStartAux L 6 then 5
  else if o < monthStartAux L 7 then 6
  else if o < monthStartAux L 8 then 7
  else if o < monthStartAux L 9 then 8
  else if o < monthStartAux L 10 then 9
  else if o < monthStartAux L 11 then 10
  else if o < monthStartAux L 12 then 11
  else 12

/-- Month (1..12) containing the 0-based ordinal day `o` of year `y`. -/
def monthOfOrdinal (y : ℤ) (o : ℕ) : ℕ := monthOfOrdinalAux (leapDay y) o

/-- Rata-die day number of January 1 of year `y` (0 for year 1).
`/` on `ℤ` is floor division for the positive divisors used here. -/
def jan1RD (y : ℤ) : ℤ := 365 * (y - 1) + (y - 1) / 4 - (y - 1) / 100 + (y - 1) / 400

/-- Model of `chrono::NaiveDate`: a year together with a 0-based day-of-year
ordinal (chrono's own internal representation). -/
structure Date where
  year : ℤ
  ord : ℕ
deriving DecidableEq

namespace Date

/-- The date denotes an actual calendar day. -/
def Valid (d : Date) : Prop := d.ord < daysInYear d.year

instance (d : Date) : Decidable d.Valid := by unfold Valid; infer_instance

/-- Rata-die day number (0 = January 1 of year 1). -/
def toRD (d : Date) : ℤ := jan1RD d.year + d.ord

/-- chrono's `NaiveDate` order: by year, then by ordinal. -/
def le (a b : Date) : Prop := a.year < b.year ∨ (a.year = b.year ∧ a.ord ≤ b.ord)

instance (a b : Date) : Decidable (le a b) := by unfold le; infer_instance

/-- `Ord::max` on dates (returns the second argument on ties). -/
def max (a b : Date) : Date := if le a b then b else a

/-- `Ord::min` on dates (returns the first argument on ties). -/
def min (a b : Date) : Date := if le a b then a else b

def month (d : Date) : ℕ := monthOfOrdinal d.year d.ord

def day (d : Date) : ℕ := d.ord + 1 - monthStart d.year d.month

/-- `chrono::Weekday::num_days_from_sunday`: day 0 of the rata-die scale
(January 1 of year 1) was a Monday. -/
def numDaysFromSunday (d : Date) : ℕ := ((d.toRD + 1) % 7).toNat

end Date

/-- `NaiveDate::from_ymd_opt(y, m, d).expect(..)` for in-range arguments. -/
def fromYmd (y : ℤ) (m d : ℕ) : Date := ⟨y, monthStart y m + (d - 1)⟩

/-- Helper for `Date.addDays`: land on ordinal `t` counting forward from
January 1 of year `y`, hopping whole years.  `fuel` bounds the recursion and is
always chosen large enough. -/
def addUp : ℕ → ℤ → ℕ → Date
  | 0, y, t => ⟨y, t⟩
  | fuel + 1, y, t =>
    if t < daysInYear y then ⟨y, t⟩ else addUp fuel (y + 1) (t - daysInYear y)

/-- Helper for `Date.addDays`: land on negative ordinal `t` relative to
January 1 of year `y`, borrowing whole years. -/
def subDown : ℕ → ℤ → ℤ → Date
  | 0, y, _ => ⟨y, 0⟩
  | fuel + 1, y, t =>
    let t2 : ℤ := t + daysInYear (y - 1)
    if 0 ≤ t2 then ⟨y - 1, t2.toNat⟩ else subDown fuel (y - 1) t2

/-- `date + chrono::Duration::days(n)` (also `pred_opt` via `n = -1`). -/
def Date.addDays (d : Date) (n : ℤ) : Date :=
  let t : ℤ := (d.ord : ℤ) + n
  if 0 ≤ t then addUp (t.toNat / 365 + 1) d.year t.toNat
  else subDown ((-t).toNat / 365 + 1) d.year t

/-- `d1 - d2` as `chrono::Duration::num_days`. -/
def Date.sub (a b : Date) : ℤ := a.toRD - b.toRD

/-! ## calendar_weeks.rs -/

structure MonthWeek where
  month : ℕ
  week_start : Date
  week_end : Date
  week_number : ℕ
deriving DecidableEq

/-- `MonthWeek::dates`. -/
def MonthWeek.dates (w : MonthWeek) : List Date :=
  (List.range (w.week_end.sub w.week_start + 1).toNat).map
    (fun offset : ℕ => w.week_start.addDays (offset : ℤ))

/-- `previous_sunday`. -/
def previous_sunday (day : Date) : Date :=
  day.addDays (-(day.numDaysFromSunday : ℤ))

/-- `week_days`. -/
def week_days (week_start : Date) : List Date :=
  (List.range 7).map (fun offset : ℕ => week_start.addDays (offset : ℤ))

/-- Removes consecutive duplicates, as `Vec::dedup` does. -/
def dedupAdj : List ℕ → List ℕ
  | [] => []
  | [a] => [a]
  | a :: b :: rest => if a = b then dedupAdj (b :: rest) else a :: dedupAdj (b :: rest)

/-- `split_by_month`: the distinct months of `days`, ascending
(`sort_unstable` then `dedup`). -/
def split_by_month (days : List Date) : List ℕ :=
  dedupAdj (List.insertionSort (· ≤ ·) (days.map Date.month))

/-- `make_month_week`. -/
def make_month_week (year : ℤ) (month : ℕ) (week_start week_end : Date)
    (week_number : ℕ) : MonthWeek :=
  let month_first := fromYmd year month 1
  let days_in_month :=
    ((fromYmd (if month = 12 then year + 1 else year)
        (if month = 12 then 1 else month + 1) 1).addDays (-1)).day
  let month_last := fromYmd year month days_in_month
  { month := month
    week_start := Date.max week_start month_first
    week_end := Date.min week_end month_last
    week_number := week_number }

/-- The local `anchor_week_start` of `partition_year_into_month_weeks`. -/
def anchorWeekStart (year : ℤ) : Date := previous_sunday (fromYmd year 1 1)

/-- The local `last_week_end` of `partition_year_into_month_weeks`. -/
def lastWeekEnd (year : ℤ) : Date := (previous_sunday (fromYmd year 12 31)).addDays 6

/-- The local `num_weeks` of `partition_year_into_month_weeks`. -/
def numWeeks (year : ℤ) : ℤ := ((lastWeekEnd year).sub (anchorWeekStart year)) / 7 + 1

/-- The local `week_start` of loop iteration `week_offset`. -/
def windowStart (year : ℤ) (week_offset : ℕ) : Date :=
  (anchorWeekStart year).addDays (7 * week_offset)

/-- The local `in_year_days` of loop iteration `week_offset`. -/
def inYearDays (year : ℤ) (week_offset : ℕ) : List Date :=
  (week_days (windowStart year week_offset)).filter (fun d => d.year == year)

/-- The `MonthWeek`s pushed to `result` by loop iteration `week_offset`. -/
def windowSegments (year : ℤ) (week_offset : ℕ) : List MonthWeek :=
  (split_by_month (inYearDays year week_offset)).map (fun month =>
    make_month_week year month (windowStart year week_offset)
      ((windowStart year week_offset).addDays 6) (week_offset + 1))

/-- `partition_year_into_month_weeks`. -/
def partition_year_into_month_weeks (year : ℤ) : List MonthWeek :=
  (List.range (numWeeks year).toNat).flatMap (windowSegments year)

/-- `month_weeks`. -/
def month_weeks (year : ℤ) (month : ℕ) : List MonthWeek :=
  (partition_year_into_month_weeks year).filter (fun w => w.month == month)

/-- `month_week_for_date` (`none` models the `NotFound` error). -/
def month_week_for_date (day : Date) : Option MonthWeek :=
  (month_weeks day.year day.month).find?
    (fun w => decide (w.week_start.le day) && decide (day.le w.week_end))

/-- The calendar days of year `y`, in order. -/
def yearDates (y : ℤ) : List Date :=
  (List.range (daysInYear y)).map (fun o => ⟨y, o⟩)

/-! ## Gregorian calendar facts -/

theorem isLeap_iff (y : ℤ) : isLeap y = true ↔ (y % 4 = 0 ∧ y % 100 ≠ 0) ∨ y % 400 = 0 := by
  unfold isLeap
  simp [Bool.or_eq_true, Bool.and_eq_true]

theorem daysInYear_bounds (y : ℤ) : 365 ≤ daysInYear y ∧ daysInYear y ≤ 366 := by
  unfold daysInYear
  split <;> omega

theorem leapDay_le_one (y : ℤ) : leapDay y ≤ 1 := by
  unfold leapDay
  split <;> omega

theorem daysInYear_eq (y : ℤ) : daysInYear y = 365 + leapDay y := by
  unfold daysInYear leapDay
  split <;> omega

theorem monthStart_one (y : ℤ) : monthStart y 1 = 0 := rfl

theorem monthStart_13 (y : ℤ) : monthStart y 13 = daysInYear y := by
  rw [daysInYear_eq]
  rfl

theorem monthStart_succ_ge (y : ℤ) (m : ℕ) (h1 : 1 ≤ m) (h2 : m ≤ 12) :
    monthStart y m + 28 ≤ monthStart y (m + 1) := by
  have hl := leapDay_le_one y
  interval_cases m <;> simp only [monthStart, monthStartAux] <;> omega

theorem monthStart_le (y : ℤ) {m k : ℕ} (h1 : 1 ≤ m) (h : m ≤ k) (h2 : k ≤ 13) :
    monthStart y m ≤ monthStart y k := by
  induction k, h using Nat.le_induction with
  | base => exact Nat.le_refl _
  | succ n hn ih =>
    have hs := monthStart_succ_ge y n (by omega) (by omega)
    have := ih (by omega)
    omega

theorem monthOfOrdinalAux_spec (L o : ℕ) (h : o < 365 + L) :
    1 ≤ monthOfOrdinalAux L o ∧ monthOfOrdinalAux L o ≤ 12 ∧
    monthStartAux L (monthOfOrdinalAux L o) ≤ o ∧
    o < monthStartAux L (monthOfOrdinalAux L o + 1) := by
  rw [monthOfOrdinalAux]
  by_cases c2 : o < monthStartAux L 2
  · rw [if_pos c2]
    have ea : monthStartAux L 1 = 0 := rfl
    have eb : monthStartAux L 2 = 31 := rfl
    have ec : monthStartAux L (1 + 1) = 31 := rfl
    omega
  by_cases c3 : o < monthStartAux L 3
  · rw [if_neg c2, if_pos c3]
    have ea : monthStartAux L 2 = 31 := rfl
    have eb : monthStartAux L 3 = 59 + L := rfl
    have ec : monthStartAux L (2 + 1) = 59 + L := rfl
    omega
  by_cases c4 : o < monthStartAux L 4
  · rw [if_neg c2, if_neg c3, if_pos c4]
    have ea : monthStartAux L 3 = 59 + L := rfl
    have eb : monthStartAux L 4 = 90 + L := rfl
    have ec : monthStartAux L (3 + 1) = 90 + L := rfl
    omega
  by_cases c5 : o < monthStartAux L 5
  · rw [if_neg c2, if_neg c3, if_neg c4, if_pos c5]
    have ea : monthStartAux L 4 = 90 + L := rfl
    have eb : monthStartAux L 5 = 120 + L := rfl
    have ec : monthStartAux L (4 + 1) = 120 + L := rfl
    omega
  by_cases c6 : o < monthStartAux L 6
  · rw [if_neg c2, if_neg c3, if_neg c4, if_neg c5, if_pos c6]
    have ea : monthStartAux L 5 = 120 + L := rfl
    have eb : monthStartAux L 6 = 151 + L := rfl
    have ec : monthStartAux L (5 + 1) = 151 + L := rfl
    omega
  by_cases c7 : o < monthStartAux L 7
  · rw [if_neg c2, if_neg c3, if_neg c4, if_neg c5, if_neg c6, if_pos c7]
    have ea : monthStartAux L 6 = 151 + L := rfl
    have eb : monthStartAux L 7 = 181 + L := rfl
    have ec : monthStartAux L (6 + 1) = 181 + L := rfl
    omega
  by_cases c8 : o < monthStartAux L 8
  · rw [if_neg c2, if_neg c3, if_neg c4, if_neg c5, if_neg c6, if_neg c7, if_pos c8]
    have ea : monthStartAux L 7 = 181 + L := rfl
    have eb : monthStartAux L 8 = 212 + L := rfl
    have ec : monthStartAux L (7 + 1) = 212 + L := rfl
    omega
  by_cases c9 : o < monthStartAux L 9
  · rw [if_neg c2, if_neg c3, if_neg c4, if_neg c5, if_neg c6, if_neg c7, if_neg c8,
      if_pos c9]
    have ea : monthStartAux L 8 = 212 + L := rfl
    have eb : monthStartAux L 9 = 243 + L := rfl
    have ec : monthStartAux L (8 + 1) = 243 + L := rfl
    omega
  by_cases c10 : o < monthStartAux L 10
  · rw [if_neg c2, if_neg c3, if_neg c4, if_neg c5, if_neg c6, if_neg c7, if_neg c8,
      if_neg c9, if_pos c10]
    have ea : monthStartAux L 9 = 243 + L := rfl
    have eb : monthStartAux L 10 = 273 + L := rfl
    have ec : monthStartAux L (9 + 1) = 273 + L := rfl
    omega
  by_cases c11 : o < monthStartAux L 11
  · rw [if_neg c2, if_neg c3, if_neg c4, if_neg c5, if_neg c6, if_neg c7, if_neg c8,
      if_neg c9, if_neg c10, if_pos c11]
    have ea : monthStartAux L 10 = 273 + L := rfl
    have eb : monthStartAux L 11 = 304 + L := rfl
    have ec : monthStartAux L (10 + 1) = 304 + L := rfl
    omega
  by_cases c12 : o < monthStartAux L 12
  · rw [if_neg c2, if_neg c3, if_neg c4, if_neg c5, if_neg c6, if_neg c7, if_neg c8,
      if_neg c9, if_neg c10, if_neg c11, if_pos c12]
    have ea : monthStartAux L 11 = 304 + L := rfl
    have eb : monthStartAux L 12 = 334 + L := rfl
    have ec : monthStartAux L (11 + 1) = 334 + L := rfl
    omega
  · rw [if_neg c2, if_neg c3, if_neg c4, if_neg c5, if_neg c6, if_neg c7, if_neg c8,
      if_neg c9, if_neg c10, if_neg c11, if_neg c12]
    have ea : monthStartAux L 12 = 334 + L := rfl
    have eb : monthStartAux L (12 + 1) = 365 + L := rfl
    omega

theorem monthOfOrdinal_spec (y : ℤ) (o : ℕ) (h : o < daysInYear y) :
    1 ≤ monthOfOrdinal y o ∧ monthOfOrdinal y o ≤ 12 ∧
    monthStart y (monthOfOrdinal y o) ≤ o ∧ o < monthStart y (monthOfOrdinal y o + 1) := by
  rw [daysInYear_eq] at h
  exact monthOfOrdinalAux_spec (leapDay y) o h

theorem monthOfOrdinal_eq (y : ℤ) (o : ℕ) (m : ℕ) (h1 : 1 ≤ m) (h2 : m ≤ 12)
    (hlo : monthStart y m ≤ o) (hhi : o < monthStart y (m + 1)) (hy : o < daysInYear y) :
    monthOfOrdinal y o = m := by
  obtain ⟨g1, g2, g3, g4⟩ := monthOfOrdinal_spec y o hy
  by_contra hne
  rcases Nat.lt_or_ge (monthOfOrdinal y o) m with hlt | hge
  · have := monthStart_le y (m := monthOfOrdinal y o + 1) (k := m) (by omega) (by omega)
      (by omega)
    omega
  · have := monthStart_le y (m := m + 1) (k := monthOfOrdinal y o) (by omega) (by omega)
      (by omega)
    omega

theorem jan1RD_succ (y : ℤ) : jan1RD (y + 1) = jan1RD y + daysInYear y := by
  have hiff := isLeap_iff y
  unfold jan1RD daysInYear
  by_cases h : isLeap y
  · rw [if_pos h]
    replace h := hiff.mp h
    push_cast
    omega
  · rw [if_neg h]
    have h2 : ¬((y % 4 = 0 ∧ y % 100 ≠ 0) ∨ y % 400 = 0) := fun hc => h (hiff.mpr hc)
    push_cast
    omega

theorem jan1RD_year_lt {y1 y2 : ℤ} (h : y1 < y2) :
    jan1RD y1 + daysInYear y1 ≤ jan1RD y2 := by
  have key : ∀ n : ℕ, jan1RD y1 + daysInYear y1 ≤ jan1RD (y1 + 1 + n) := by
    intro n
    induction n with
    | zero => simpa using le_of_eq (jan1RD_succ y1).symm
    | succ k ih =>
      have hs := jan1RD_succ (y1 + 1 + k)
      have hb := daysInYear_bounds (y1 + 1 + k)
      have harg : y1 + 1 + ((k : ℤ) + 1) = (y1 + 1 + k) + 1 := by ring
      push_cast
      rw [harg, hs]
      push_cast at ih
      omega
  obtain ⟨n, rfl⟩ : ∃ n : ℕ, y2 = y1 + 1 + n := ⟨(y2 - y1 - 1).toNat, by omega⟩
  exact key n

/-! ## Date facts -/

theorem Date.toRD_lt_of_year_lt {a b : Date} (ha : a.Valid) (h : a.year < b.year) :
    a.toRD < b.toRD := by
  have h1 := jan1RD_year_lt h
  unfold Date.Valid at ha
  unfold Date.toRD
  omega

theorem Date.toRD_inj {a b : Date} (ha : a.Valid) (hb : b.Valid) (h : a.toRD = b.toRD) :
    a = b := by
  rcases lt_trichotomy a.year b.year with hy | hy | hy
  · exact absurd h (ne_of_lt (Date.toRD_lt_of_year_lt ha hy))
  · obtain ⟨ya, oa⟩ := a
    obtain ⟨yb, ob⟩ := b
    simp only at hy
    subst hy
    unfold Date.toRD at h
    simp only at h
    have : oa = ob := by omega
    rw [this]
  · exact absurd h.symm (ne_of_lt (Date.toRD_lt_of_year_lt hb hy))

theorem Date.le_iff_toRD {a b : Date} (ha : a.Valid) (hb : b.Valid) :
    a.le b ↔ a.toRD ≤ b.toRD := by
  constructor
  · intro hle
    rcases hle with hy | ⟨hy, ho⟩
    · exact le_of_lt (Date.toRD_lt_of_year_lt ha hy)
    · unfold Date.toRD
      rw [hy]
      omega
  · intro hr
    by_contra hnle
    unfold Date.le at hnle
    have hcase : b.year < a.year ∨ (a.year = b.year ∧ b.ord < a.ord) := by
      rcases lt_trichotomy a.year b.year with hy | hy | hy
      · exact absurd (Or.inl hy) hnle
      · right
        refine ⟨hy, ?_⟩
        by_contra ho
        exact hnle (Or.inr ⟨hy, by omega⟩)
      · exact Or.inl hy
    rcases hcase with hy | ⟨hy, ho⟩
    · exact absurd hr (not_le.mpr (Date.toRD_lt_of_year_lt hb hy))
    · unfold Date.toRD at hr
      rw [hy] at hr
      omega

theorem Date.year_eq_iff {d : Date} (hd : d.Valid) {y : ℤ} :
    d.year = y ↔ jan1RD y ≤ d.toRD ∧ d.toRD < jan1RD y + daysInYear y := by
  constructor
  · rintro rfl
    unfold Date.Valid at hd
    unfold Date.toRD
    omega
  · rintro ⟨h1, h2⟩
    rcases lt_trichotomy d.year y with hy | hy | hy
    · have hj := jan1RD_year_lt hy
      unfold Date.Valid at hd
      unfold Date.toRD at h1
      omega
    · exact hy
    · have hj := jan1RD_year_lt hy
      have hb := daysInYear_bounds y
      unfold Date.toRD at h2
      omega

theorem addUp_spec (fuel : ℕ) : ∀ (y : ℤ) (t : ℕ), t < 365 * fuel + 365 →
    (addUp fuel y t).Valid ∧ (addUp fuel y t).toRD = jan1RD y + t := by
  induction fuel with
  | zero =>
    intro y t ht
    have hb := daysInYear_bounds y
    exact ⟨show t < daysInYear y by omega, show jan1RD y + (t : ℤ) = jan1RD y + t from rfl⟩
  | succ fuel ih =>
    intro y t ht
    by_cases hc : t < daysInYear y
    · rw [addUp, if_pos hc]
      exact ⟨show t < daysInYear y by omega, show jan1RD y + (t : ℤ) = jan1RD y + t from rfl⟩
    · rw [addUp, if_neg hc]
      have hb := daysInYear_bounds y
      obtain ⟨v1, v2⟩ := ih (y + 1) (t - daysInYear y) (by omega)
      refine ⟨v1, ?_⟩
      rw [v2, jan1RD_succ]
      omega

theorem subDown_spec (fuel : ℕ) : ∀ (y : ℤ) (t : ℤ), t < 0 → -(365 * (fuel : ℤ)) ≤ t →
    (subDown fuel y t).Valid ∧ (subDown fuel y t).toRD = jan1RD y + t := by
  induction fuel with
  | zero =>
    intro y t h1 h2
    exfalso
    omega
  | succ fuel ih =>
    intro y t h1 h2
    have hb := daysInYear_bounds (y - 1)
    have hj : jan1RD (y - 1 + 1) = jan1RD (y - 1) + daysInYear (y - 1) := jan1RD_succ (y - 1)
    have hy : y - 1 + 1 = y := by ring
    rw [hy] at hj
    by_cases hc : 0 ≤ t + (daysInYear (y - 1) : ℤ)
    · rw [subDown, if_pos hc]
      constructor
      · show (t + (daysInYear (y - 1) : ℤ)).toNat < daysInYear (y - 1)
        omega
      · show jan1RD (y - 1) + ((t + (daysInYear (y - 1) : ℤ)).toNat : ℤ) = jan1RD y + t
        omega
    · rw [subDown, if_neg hc]
      obtain ⟨v1, v2⟩ := ih (y - 1) (t + (daysInYear (y - 1) : ℤ)) (by omega) (by omega)
      refine ⟨v1, ?_⟩
      rw [v2]
      omega

theorem Date.addDays_spec (d : Date) (n : ℤ) :
    (d.addDays n).Valid ∧ (d.addDays n).toRD = d.toRD + n := by
  by_cases hc : 0 ≤ (d.ord : ℤ) + n
  · rw [Date.addDays, if_pos hc]
    obtain ⟨v1, v2⟩ := addUp_spec (((d.ord : ℤ) + n).toNat / 365 + 1) d.year
      (((d.ord : ℤ) + n).toNat) (by omega)
    refine ⟨v1, ?_⟩
    rw [v2]
    unfold Date.toRD
    omega
  · rw [Date.addDays, if_neg hc]
    obtain ⟨v1, v2⟩ := subDown_spec ((-((d.ord : ℤ) + n)).toNat / 365 + 1) d.year
      ((d.ord : ℤ) + n) (by omega) (by push_cast; omega)
    refine ⟨v1, ?_⟩
    rw [v2]
    unfold Date.toRD
    omega

theorem Date.addDays_valid (d : Date) (n : ℤ) : (d.addDays n).Valid :=
  (Date.addDays_spec d n).1

theorem Date.addDays_toRD (d : Date) (n : ℤ) : (d.addDays n).toRD = d.toRD + n :=
  (Date.addDays_spec d n).2

theorem previous_sunday_toRD (d : Date) :
    (previous_sunday d).toRD = d.toRD - (d.toRD + 1) % 7 := by
  unfold previous_sunday
  rw [Date.addDays_toRD]
  unfold Date.numDaysFromSunday
  omega

theorem previous_sunday_valid (d : Date) : (previous_sunday d).Valid :=
  Date.addDays_valid d _

theorem mem_addDays_range {s d : Date} {n : ℕ} :
    d ∈ (List.range n).map (fun k : ℕ => s.addDays (k : ℤ)) ↔
      d.Valid ∧ s.toRD ≤ d.toRD ∧ d.toRD < s.toRD + n := by
  constructor
  · intro hmem
    rcases List.mem_map.mp hmem with ⟨k, hk, rfl⟩
    have hk2 := List.mem_range.mp hk
    have h := Date.addDays_spec s (k : ℤ)
    refine ⟨h.1, by rw [h.2]; omega, by rw [h.2]; omega⟩
  · rintro ⟨hv, h1, h2⟩
    refine List.mem_map.mpr ⟨(d.toRD - s.toRD).toNat, List.mem_range.mpr (by omega), ?_⟩
    have h := Date.addDays_spec s (((d.toRD - s.toRD).toNat : ℕ) : ℤ)
    refine Date.toRD_inj h.1 hv ?_
    rw [h.2]
    omega

theorem nodup_addDays_range (s : Date) (n : ℕ) :
    ((List.range n).map (fun k : ℕ => s.addDays (k : ℤ))).Nodup := by
  refine List.Nodup.map_on ?_ (List.nodup_range n)
  intro a ha b hb hab
  have h1 := Date.addDays_toRD s (a : ℤ)
  have h2 := Date.addDays_toRD s (b : ℤ)
  rw [hab] at h1
  omega

theorem Date.max_spec {a b : Date} (ha : a.Valid) (hb : b.Valid) :
    (Date.max a b).Valid ∧ (Date.max a b).toRD = Max.max a.toRD b.toRD := by
  unfold Date.max
  split
  · rename_i h
    rw [Date.le_iff_toRD ha hb] at h
    exact ⟨hb, by omega⟩
  · rename_i h
    rw [Date.le_iff_toRD ha hb] at h
    exact ⟨ha, by omega⟩

theorem Date.min_spec {a b : Date} (ha : a.Valid) (hb : b.Valid) :
    (Date.min a b).Valid ∧ (Date.min a b).toRD = Min.min a.toRD b.toRD := by
  unfold Date.min
  split
  · rename_i h
    rw [Date.le_iff_toRD ha hb] at h
    exact ⟨ha, by omega⟩
  · rename_i h
    rw [Date.le_iff_toRD ha hb] at h
    exact ⟨hb, by omega⟩

theorem fromYmd_jan1 (y : ℤ) : fromYmd y 1 1 = ⟨y, 0⟩ := rfl

theorem toRD_jan1 (y : ℤ) : (fromYmd y 1 1).toRD = jan1RD y := by
  rw [fromYmd_jan1]
  unfold Date.toRD
  simp

theorem jan1_valid (y : ℤ) : (fromYmd y 1 1).Valid := by
  rw [fromYmd_jan1]
  show 0 < daysInYear y
  have := daysInYear_bounds y
  omega

theorem fromYmd_dec31 (y : ℤ) : fromYmd y 12 31 = ⟨y, daysInYear y - 1⟩ := by
  have e12 : monthStart y 12 = 334 + leapDay y := rfl
  have hd := daysInYear_eq y
  unfold fromYmd
  simp only [Date.mk.injEq, true_and]
  omega

theorem toRD_dec31 (y : ℤ) : (fromYmd y 12 31).toRD = jan1RD y + daysInYear y - 1 := by
  rw [fromYmd_dec31]
  unfold Date.toRD
  have := daysInYear_bounds y
  simp only
  omega

/-! ## Window arithmetic for the partitioner -/

theorem anchorWeekStart_toRD (y : ℤ) :
    (anchorWeekStart y).toRD = jan1RD y - (jan1RD y + 1) % 7 := by
  unfold anchorWeekStart
  rw [previous_sunday_toRD, toRD_jan1]

theorem anchorWeekStart_valid (y : ℤ) : (anchorWeekStart y).Valid :=
  previous_sunday_valid _

theorem lastWeekEnd_toRD (y : ℤ) :
    (lastWeekEnd y).toRD =
      jan1RD y + daysInYear y - 1 - (jan1RD y + daysInYear y) % 7 + 6 := by
  unfold lastWeekEnd
  rw [Date.addDays_toRD, previous_sunday_toRD, toRD_dec31]
  omega

theorem numWeeks_eq (y : ℤ) :
    numWeeks y = ((lastWeekEnd y).toRD - (anchorWeekStart y).toRD) / 7 + 1 := rfl

theorem window_bounds (y : ℤ) :
    (anchorWeekStart y).toRD ≤ jan1RD y ∧
    jan1RD y ≤ (anchorWeekStart y).toRD + 6 ∧
    jan1RD y + daysInYear y - 1 ≤ (lastWeekEnd y).toRD ∧
    (lastWeekEnd y).toRD ≤ jan1RD y + daysInYear y + 5 ∧
    1 ≤ numWeeks y ∧
    (anchorWeekStart y).toRD + 7 * numWeeks y - 1 = (lastWeekEnd y).toRD ∧
    ((anchorWeekStart y).toRD + 1) % 7 = 0 := by
  have ha := anchorWeekStart_toRD y
  have he := lastWeekEnd_toRD y
  have hn := numWeeks_eq y
  have hb := daysInYear_bounds y
  omega

theorem windowStart_toRD (y : ℤ) (i : ℕ) :
    (windowStart y i).toRD = (anchorWeekStart y).toRD + 7 * i := by
  unfold windowStart
  rw [Date.addDays_toRD]

theorem windowStart_valid (y : ℤ) (i : ℕ) : (windowStart y i).Valid :=
  Date.addDays_valid _ _

/-! ## Month-of-date facts -/

theorem Date.month_spec {d : Date} (hv : d.Valid) :
    1 ≤ d.month ∧ d.month ≤ 12 ∧
    jan1RD d.year + monthStart d.year d.month ≤ d.toRD ∧
    d.toRD < jan1RD d.year + monthStart d.year (d.month + 1) := by
  obtain ⟨h1, h2, h3, h4⟩ := monthOfOrdinal_spec d.year d.ord hv
  unfold Date.month
  unfold Date.toRD
  exact ⟨h1, h2, by omega, by omega⟩

theorem Date.month_eq {d : Date} (hv : d.Valid) {m : ℕ} (h1 : 1 ≤ m) (h2 : m ≤ 12)
    (hlo : jan1RD d.year + monthStart d.year m ≤ d.toRD)
    (hhi : d.toRD < jan1RD d.year + monthStart d.year (m + 1)) : d.month = m := by
  unfold Date.toRD at hlo hhi
  exact monthOfOrdinal_eq d.year d.ord m h1 h2 (by omega) (by omega) hv

theorem fromYmd_first (y : ℤ) (m : ℕ) : fromYmd y m 1 = ⟨y, monthStart y m⟩ := by
  unfold fromYmd
  simp

theorem month_first_valid (y : ℤ) {m : ℕ} (h1 : 1 ≤ m) (h2 : m ≤ 12) :
    (⟨y, monthStart y m⟩ : Date).Valid := by
  show monthStart y m < daysInYear y
  have h := monthStart_le y (m := m) (k := 12) h1 h2 (by omega)
  have e12 : monthStart y 12 = 334 + leapDay y := rfl
  have hd := daysInYear_eq y
  omega

theorem month_last_valid (y : ℤ) {m : ℕ} (h1 : 1 ≤ m) (h2 : m ≤ 12) :
    (⟨y, monthStart y (m + 1) - 1⟩ : Date).Valid := by
  show monthStart y (m + 1) - 1 < daysInYear y
  have h := monthStart_le y (m := m + 1) (k := 13) (by omega) (by omega) (by omega)
  rw [monthStart_13] at h
  have hb := daysInYear_bounds y
  have hms := monthStart_succ_ge y m h1 h2
  omega

theorem next_month_first_pred (y : ℤ) {m : ℕ} (h1 : 1 ≤ m) (h2 : m ≤ 12) :
    (fromYmd (if m = 12 then y + 1 else y) (if m = 12 then 1 else m + 1) 1).addDays (-1)
      = ⟨y, monthStart y (m + 1) - 1⟩ := by
  have hms := monthStart_succ_ge y m h1 h2
  have hlast := month_last_valid y h1 h2
  by_cases hm : m = 12
  · subst hm
    rw [if_pos rfl, if_pos rfl]
    apply Date.toRD_inj (Date.addDays_valid _ _) hlast
    rw [Date.addDays_toRD, toRD_jan1]
    have hj := jan1RD_succ y
    have e13 : monthStart y (12 + 1) = 365 + leapDay y := rfl
    have hd := daysInYear_eq y
    show jan1RD (y + 1) + (-1) = jan1RD y + ((monthStart y (12 + 1) - 1 : ℕ) : ℤ)
    omega
  · rw [if_neg hm, if_neg hm]
    apply Date.toRD_inj (Date.addDays_valid _ _) hlast
    rw [Date.addDays_toRD, fromYmd_first]
    show jan1RD y + ((monthStart y (m + 1) : ℕ) : ℤ) + (-1)
      = jan1RD y + ((monthStart y (m + 1) - 1 : ℕ) : ℤ)
    omega

theorem pred_day (y : ℤ) {m : ℕ} (h1 : 1 ≤ m) (h2 : m ≤ 12) :
    (⟨y, monthStart y (m + 1) - 1⟩ : Date).day
      = monthStart y (m + 1) - monthStart y m := by
  have hms := monthStart_succ_ge y m h1 h2
  have hlast := month_last_valid y h1 h2
  have hmonth : (⟨y, monthStart y (m + 1) - 1⟩ : Date).month = m := by
    refine Date.month_eq hlast h1 h2 ?_ ?_
    · show jan1RD y + (monthStart y m : ℤ) ≤ jan1RD y + ((monthStart y (m + 1) - 1 : ℕ) : ℤ)
      omega
    · show jan1RD y + ((monthStart y (m + 1) - 1 : ℕ) : ℤ)
        < jan1RD y + (monthStart y (m + 1) : ℤ)
      omega
  unfold Date.day
  rw [hmonth]
  show monthStart y (m + 1) - 1 + 1 - monthStart y m = monthStart y (m + 1) - monthStart y m
  omega

theorem make_month_week_eq (y : ℤ) {m : ℕ} (h1 : 1 ≤ m) (h2 : m ≤ 12)
    (ws we : Date) (wn : ℕ) :
    make_month_week y m ws we wn =
      { month := m
        week_start := Date.max ws ⟨y, monthStart y m⟩
        week_end := Date.min we ⟨y, monthStart y (m + 1) - 1⟩
        week_number := wn } := by
  have hms := monthStart_succ_ge y m h1 h2
  have hlm : fromYmd y m (monthStart y (m + 1) - monthStart y m)
      = ⟨y, monthStart y (m + 1) - 1⟩ := by
    unfold fromYmd
    simp only [Date.mk.injEq, true_and]
    omega
  simp only [make_month_week]
  rw [next_month_first_pred y h1 h2, pred_day y h1 h2, hlm, fromYmd_first]

/-! ## Segment dates -/

theorem mem_dates_iff {w : MonthWeek} {d : Date} :
    d ∈ w.dates ↔
      d.Valid ∧ w.week_start.toRD ≤ d.toRD ∧ d.toRD ≤ w.week_end.toRD := by
  unfold MonthWeek.dates
  rw [mem_addDays_range]
  unfold Date.sub
  constructor
  · rintro ⟨hv, hl, hh⟩
    exact ⟨hv, hl, by omega⟩
  · rintro ⟨hv, hl, hh⟩
    exact ⟨hv, hl, by omega⟩

theorem dates_count (w : MonthWeek) (d : Date) :
    w.dates.count d =
      if d.Valid ∧ w.week_start.toRD ≤ d.toRD ∧ d.toRD ≤ w.week_end.toRD
      then 1 else 0 := by
  have hnd : w.dates.Nodup := by
    unfold MonthWeek.dates
    exact nodup_addDays_range _ _
  split
  · rename_i h
    exact List.count_eq_one_of_mem hnd (mem_dates_iff.mpr h)
  · rename_i h
    exact List.count_eq_zero_of_not_mem (fun hm => h (mem_dates_iff.mp hm))

/-! ## split_by_month facts -/

theorem mem_dedupAdj (l : List ℕ) (a : ℕ) : a ∈ dedupAdj l ↔ a ∈ l := by
  induction l with
  | nil => simp [dedupAdj]
  | cons x rest ih =>
    cases rest with
    | nil => simp [dedupAdj]
    | cons b t =>
      rw [dedupAdj]
      split
      · rename_i hxb
        subst hxb
        rw [ih]
        simp only [List.mem_cons]
        tauto
      · rename_i hxb
        simp only [List.mem_cons, ih]

theorem dedupAdj_sorted_lt : ∀ {l : List ℕ},
    List.Sorted (· ≤ ·) l → List.Sorted (· < ·) (dedupAdj l) := by
  intro l
  induction l with
  | nil => intro _; simp [dedupAdj]
  | cons x rest ih =>
    cases rest with
    | nil => intro _; simp [dedupAdj]
    | cons b t =>
      intro hs
      have hs1 : List.Sorted (· ≤ ·) (b :: t) := hs.of_cons
      rw [dedupAdj]
      split
      · exact ih hs1
      · rename_i hxb
        rw [List.sorted_cons]
        refine ⟨?_, ih hs1⟩
        intro z hz
        rw [mem_dedupAdj] at hz
        have hxb2 : x ≤ b := (List.sorted_cons.mp hs).1 b (List.mem_cons_self _ _)
        rcases List.mem_cons.mp hz with rfl | hz2
        · omega
        · have hbz : b ≤ z := (List.sorted_cons.mp hs1).1 z hz2
          omega

theorem split_by_month_nodup (days : List Date) : (split_by_month days).Nodup := by
  unfold split_by_month
  have hs := List.sorted_insertionSort (· ≤ ·) (days.map Date.month)
  exact (dedupAdj_sorted_lt hs).imp (fun h => Nat.ne_of_lt h)

theorem mem_split_by_month {days : List Date} {m : ℕ} :
    m ∈ split_by_month days ↔ m ∈ days.map Date.month := by
  unfold split_by_month
  rw [mem_dedupAdj]
  exact (List.perm_insertionSort (· ≤ ·) _).mem_iff

theorem mem_inYearDays {y : ℤ} {i : ℕ} {d : Date} :
    d ∈ inYearDays y i ↔
      d.Valid ∧ d.year = y ∧ (windowStart y i).toRD ≤ d.toRD ∧
        d.toRD < (windowStart y i).toRD + 7 := by
  unfold inYearDays week_days
  rw [List.mem_filter, mem_addDays_range]
  constructor
  · rintro ⟨⟨hv, hl, hh⟩, hb⟩
    refine ⟨hv, by simpa using hb, hl, by omega⟩
  · rintro ⟨hv, hy, hl, hh⟩
    exact ⟨⟨hv, hl, by omega⟩, by simp [hy]⟩

theorem split_inYear_mem {y : ℤ} {i : ℕ} {m : ℕ}
    (hm : m ∈ split_by_month (inYearDays y i)) :
    1 ≤ m ∧ m ≤ 12 ∧
    ∃ r : ℤ, (windowStart y i).toRD ≤ r ∧ r < (windowStart y i).toRD + 7 ∧
      jan1RD y + monthStart y m ≤ r ∧ r < jan1RD y + monthStart y (m + 1) := by
  rw [mem_split_by_month] at hm
  rcases List.mem_map.mp hm with ⟨e, he, rfl⟩
  rcases mem_inYearDays.mp he with ⟨hv, hy, hlo, hhi⟩
  obtain ⟨h1, h2, h3, h4⟩ := Date.month_spec hv
  rw [hy] at h3 h4
  exact ⟨h1, h2, e.toRD, hlo, hhi, h3, h4⟩

/-! ## Counting days across the partition -/

theorem sum_map_indicator_one {α : Type} [DecidableEq α] (l : List α) (f : α → ℕ) (a : α)
    (hnd : l.Nodup) (ha : a ∈ l) (hother : ∀ b, b ≠ a → b ∈ l → f b = 0) (hfa : f a = 1) :
    (l.map f).sum = 1 := by
  rw [List.sum_map_eq_nsmul_single a f hother, List.count_eq_one_of_mem hnd ha, hfa]
  simp

theorem sum_map_zero {α : Type} (l : List α) (f : α → ℕ) (h : ∀ b ∈ l, f b = 0) :
    (l.map f).sum = 0 := by
  apply List.sum_eq_zero
  intro x hx
  rcases List.mem_map.mp hx with ⟨b, hb, rfl⟩
  exact h b hb

theorem count_segment (y : ℤ) (i : ℕ) {m : ℕ} (h1 : 1 ≤ m) (h2 : m ≤ 12) (wn : ℕ)
    (d : Date) :
    (MonthWeek.dates (make_month_week y m (windowStart y i)
        ((windowStart y i).addDays 6) wn)).count d =
      if d.Valid ∧
          Max.max ((windowStart y i).toRD) (jan1RD y + monthStart y m) ≤ d.toRD ∧
          d.toRD ≤ Min.min ((windowStart y i).toRD + 6)
            (jan1RD y + monthStart y (m + 1) - 1)
      then 1 else 0 := by
  rw [make_month_week_eq y h1 h2, dates_count]
  dsimp only
  have hws := windowStart_valid y i
  have hfv := month_first_valid y h1 h2
  have hlv := month_last_valid y h1 h2
  have hwe : ((windowStart y i).addDays 6).Valid := Date.addDays_valid _ _
  have hmax := (Date.max_spec hws hfv).2
  have hmin := (Date.min_spec hwe hlv).2
  have he : ((windowStart y i).addDays 6).toRD = (windowStart y i).toRD + 6 :=
    Date.addDays_toRD _ _
  have hf : (⟨y, monthStart y m⟩ : Date).toRD = jan1RD y + (monthStart y m : ℤ) := rfl
  have hl : (⟨y, monthStart y (m + 1) - 1⟩ : Date).toRD
      = jan1RD y + ((monthStart y (m + 1) - 1 : ℕ) : ℤ) := rfl
  have hms := monthStart_succ_ge y m h1 h2
  apply if_congr _ rfl rfl
  constructor
  · rintro ⟨hv, ha, hb⟩
    exact ⟨hv, by omega, by omega⟩
  · rintro ⟨hv, ha, hb⟩
    exact ⟨hv, by omega, by omega⟩

theorem count_window (y : ℤ) (i : ℕ) (d : Date) :
    ((windowSegments y i).flatMap MonthWeek.dates).count d =
      if d.Valid ∧ d.year = y ∧ (windowStart y i).toRD ≤ d.toRD ∧
          d.toRD < (windowStart y i).toRD + 7
      then 1 else 0 := by
  unfold windowSegments
  rw [List.count_flatMap, List.map_map]
  have hms13 : monthStart y 13 = daysInYear y := monthStart_13 y
  by_cases hcond : d.Valid ∧ d.year = y ∧ (windowStart y i).toRD ≤ d.toRD ∧
      d.toRD < (windowStart y i).toRD + 7
  · rw [if_pos hcond]
    obtain ⟨hv, hy, hlo, hhi⟩ := hcond
    obtain ⟨m1, m2, m3, m4⟩ := Date.month_spec hv
    rw [hy] at m3 m4
    have hmem : d.month ∈ split_by_month (inYearDays y i) := by
      rw [mem_split_by_month]
      exact List.mem_map.mpr ⟨d, mem_inYearDays.mpr ⟨hv, hy, hlo, hhi⟩, rfl⟩
    refine sum_map_indicator_one _ _ d.month (split_by_month_nodup _) hmem ?_ ?_
    · intro b hbne hb
      obtain ⟨b1, b2, r0, w1, w2, w3, w4⟩ := split_inYear_mem hb
      show (MonthWeek.dates (make_month_week y b _ _ _)).count d = 0
      rw [count_segment y i b1 b2]
      apply if_neg
      rintro ⟨hv2, ha, hb2⟩
      apply hbne
      refine (Date.month_eq hv b1 b2 ?_ ?_).symm
      · rw [hy]
        omega
      · rw [hy]
        omega
    · show (MonthWeek.dates (make_month_week y d.month _ _ _)).count d = 1
      rw [count_segment y i m1 m2]
      apply if_pos
      exact ⟨hv, by omega, by omega⟩
  · rw [if_neg hcond]
    apply sum_map_zero
    intro b hb
    obtain ⟨b1, b2, r0, w1, w2, w3, w4⟩ := split_inYear_mem hb
    show (MonthWeek.dates (make_month_week y b _ _ _)).count d = 0
    rw [count_segment y i b1 b2]
    apply if_neg
    rintro ⟨hv2, ha, hb2⟩
    apply hcond
    have hmsb : monthStart y (b + 1) ≤ daysInYear y := by
      have := monthStart_le y (m := b + 1) (k := 13) (by omega) (by omega) (by omega)
      omega
    refine ⟨hv2, (Date.year_eq_iff hv2).mpr ⟨by omega, by omega⟩, by omega, by omega⟩

theorem partition_count (y : ℤ) (d : Date) :
    ((partition_year_into_month_weeks y).flatMap MonthWeek.dates).count d =
      if d.Valid ∧ d.year = y then 1 else 0 := by
  unfold partition_year_into_month_weeks
  rw [List.flatMap_assoc, List.count_flatMap]
  have hmapeq :
      (List.range (numWeeks y).toNat).map
          (List.count d ∘ fun i => (windowSegments y i).flatMap MonthWeek.dates)
        = (List.range (numWeeks y).toNat).map
          (fun i => if d.Valid ∧ d.year = y ∧ (windowStart y i).toRD ≤ d.toRD ∧
              d.toRD < (windowStart y i).toRD + 7 then 1 else 0) :=
    List.map_congr_left (fun i _ => count_window y i d)
  rw [hmapeq]
  obtain ⟨wb1, wb2, wb3, wb4, wb5, wb6, wb7⟩ := window_bounds y
  by_cases hc : d.Valid ∧ d.year = y
  · rw [if_pos hc]
    obtain ⟨hv, hy⟩ := hc
    have hr := (Date.year_eq_iff hv).mp hy
    refine sum_map_indicator_one _ _ ((d.toRD - (anchorWeekStart y).toRD) / 7).toNat
      (List.nodup_range _) (List.mem_range.mpr (by omega)) ?_ ?_
    · intro b hbne hb
      have hwsb := windowStart_toRD y b
      apply if_neg
      rintro ⟨_, _, ha, hb2⟩
      apply hbne
      omega
    · have hwsi := windowStart_toRD y ((d.toRD - (anchorWeekStart y).toRD) / 7).toNat
      apply if_pos
      exact ⟨hv, hy, by omega, by omega⟩
  · rw [if_neg hc]
    apply sum_map_zero
    intro b hb
    apply if_neg
    rintro ⟨hv, hy, _, _⟩
    exact hc ⟨hv, hy⟩

theorem count_yearDates (y : ℤ) (d : Date) :
    (yearDates y).count d = if d.Valid ∧ d.year = y then 1 else 0 := by
  have hnd : (yearDates y).Nodup := by
    unfold yearDates
    refine List.Nodup.map_on ?_ (List.nodup_range _)
    intro a _ b _ hab
    exact congrArg Date.ord hab
  have hmem : d ∈ yearDates y ↔ d.Valid ∧ d.year = y := by
    unfold yearDates
    rw [List.mem_map]
    constructor
    · rintro ⟨o, ho, rfl⟩
      exact ⟨List.mem_range.mp ho, rfl⟩
    · obtain ⟨dy, dord⟩ := d
      rintro ⟨hv, hy⟩
      simp only at hy
      subst hy
      exact ⟨dord, List.mem_range.mpr hv, rfl⟩
  split
  · rename_i h
    exact List.count_eq_one_of_mem hnd (hmem.mpr h)
  · rename_i h
    exact List.count_eq_zero_of_not_mem (fun hm => h (hmem.mp hm))

/-! ## Shape of the emitted segments -/

/-- The first day of month `m` of year `y`. -/
def firstDayOfMonth (y : ℤ) (m : ℕ) : Date := fromYmd y m 1

/-- The last day of month `m` of year `y`. -/
def lastDayOfMonth (y : ℤ) (m : ℕ) : Date := ⟨y, monthStart y (m + 1) - 1⟩

theorem mem_partition_char {y : ℤ} {w : MonthWeek}
    (hw : w ∈ partition_year_into_month_weeks y) :
    ∃ (i : ℕ) (m : ℕ), (i : ℤ) < numWeeks y ∧ 1 ≤ m ∧ m ≤ 12 ∧
      w = make_month_week y m (windowStart y i) ((windowStart y i).addDays 6) (i + 1) ∧
      m ∈ split_by_month (inYearDays y i) := by
  unfold partition_year_into_month_weeks at hw
  rcases List.mem_flatMap.mp hw with ⟨i, hi, hwseg⟩
  unfold windowSegments at hwseg
  rcases List.mem_map.mp hwseg with ⟨m, hm, rfl⟩
  obtain ⟨m1, m2, _⟩ := split_inYear_mem hm
  have hik := List.mem_range.mp hi
  exact ⟨i, m, by omega, m1, m2, rfl, hm⟩

theorem segment_shape {y : ℤ} {w : MonthWeek}
    (hw : w ∈ partition_year_into_month_weeks y) :
    ∃ (i : ℕ) (m : ℕ), 1 ≤ m ∧ m ≤ 12 ∧ w.month = m ∧ w.week_number = i + 1 ∧
      w.week_start.Valid ∧ w.week_end.Valid ∧
      w.week_start.toRD
        = Max.max ((anchorWeekStart y).toRD + 7 * i) (jan1RD y + monthStart y m) ∧
      w.week_end.toRD
        = Min.min ((anchorWeekStart y).toRD + 7 * i + 6)
            (jan1RD y + monthStart y (m + 1) - 1) ∧
      (w.week_start = windowStart y i ∨ w.week_start = firstDayOfMonth y m) ∧
      (w.week_end = (windowStart y i).addDays 6 ∨ w.week_end = lastDayOfMonth y m) ∧
      ∃ r : ℤ, (anchorWeekStart y).toRD + 7 * i ≤ r ∧
        r < (anchorWeekStart y).toRD + 7 * i + 7 ∧
        jan1RD y + monthStart y m ≤ r ∧ r < jan1RD y + monthStart y (m + 1) := by
  obtain ⟨i, m, hiK, m1, m2, rfl, hm⟩ := mem_partition_char hw
  rw [make_month_week_eq y m1 m2]
  obtain ⟨b1, b2, r0, u1, u2, u3, u4⟩ := split_inYear_mem hm
  have hwsT := windowStart_toRD y i
  rw [hwsT] at u1 u2
  have hws := windowStart_valid y i
  have hfv := month_first_valid y m1 m2
  have hlv := month_last_valid y m1 m2
  have hwe : ((windowStart y i).addDays 6).Valid := Date.addDays_valid _ _
  have hmaxS := Date.max_spec hws hfv
  have hminS := Date.min_spec hwe hlv
  have he := Date.addDays_toRD (windowStart y i) 6
  have hf : (⟨y, monthStart y m⟩ : Date).toRD = jan1RD y + (monthStart y m : ℤ) := rfl
  have hl : (⟨y, monthStart y (m + 1) - 1⟩ : Date).toRD
      = jan1RD y + ((monthStart y (m + 1) - 1 : ℕ) : ℤ) := rfl
  have hms := monthStart_succ_ge y m m1 m2
  refine ⟨i, m, m1, m2, rfl, rfl, hmaxS.1, hminS.1, ?_, ?_, ?_, ?_, r0, u1, u2, u3, u4⟩
  · rw [hmaxS.2, hf, hwsT]
  · rw [hminS.2, he, hl, hwsT]
    omega
  · show Date.max (windowStart y i) _ = _ ∨ Date.max (windowStart y i) _ = _
    unfold Date.max
    split
    · right
      exact (fromYmd_first y m).symm
    · left
      rfl
  · show Date.min ((windowStart y i).addDays 6) _ = _ ∨
      Date.min ((windowStart y i).addDays 6) _ = _
    unfold Date.min
    split
    · left
      rfl
    · right
      rfl

theorem windowSegments_week_number {y : ℤ} {i : ℕ} {w : MonthWeek}
    (hw : w ∈ windowSegments y i) : w.week_number = i + 1 := by
  unfold windowSegments at hw
  rcases List.mem_map.mp hw with ⟨m, hm, rfl⟩
  obtain ⟨m1, m2, _⟩ := split_inYear_mem hm
  rw [make_month_week_eq y m1 m2]

theorem pairwise_week_number (y : ℤ) :
    List.Pairwise (fun a b => a.week_number ≤ b.week_number)
      (partition_year_into_month_weeks y) := by
  unfold partition_year_into_month_weeks
  generalize (numWeeks y).toNat = K
  induction K with
  | zero => simp
  | succ k ih =>
    rw [List.range_succ, List.flatMap_append, List.pairwise_append]
    refine ⟨ih, ?_, ?_⟩
    · simp only [List.flatMap_cons, List.flatMap_nil, List.append_nil]
      apply List.pairwise_of_forall_mem_list
      intro a ha b hb
      rw [windowSegments_week_number ha, windowSegments_week_number hb]
    · intro a ha b hb
      rcases List.mem_flatMap.mp ha with ⟨i, hi, hai⟩
      simp only [List.flatMap_cons, List.flatMap_nil, List.append_nil] at hb
      rw [windowSegments_week_number hai, windowSegments_week_number hb]
      have := List.mem_range.mp hi
      omega

/-! ## The claims about calendar_weeks.rs -/

/-- C1: for every year `Y`, the multiset union of `dates()` over all segments
returned by `partition_year_into_month_weeks(Y)` is exactly the set of calendar
days of year `Y`, each day appearing in exactly one segment (no gaps, no
duplicates). -/
theorem c1_partition_covers_year (y : ℤ) :
    ((partition_year_into_month_weeks y).flatMap MonthWeek.dates).Perm (yearDates y) := by
  rw [List.perm_iff_count]
  intro d
  rw [partition_count, count_yearDates]

/-- C3: every emitted segment has `week_start` a Sunday or the first day of its
month, `week_end` a Saturday or the last day of its month, at least one of the
two boundaries natural (Sunday/Saturday), `week_start <= week_end`, and both
boundary dates lie within the segment's month of the partitioned year. -/
theorem c3_boundary_invariant (y : ℤ) (w : MonthWeek)
    (hw : w ∈ partition_year_into_month_weeks y) :
    (w.week_start.numDaysFromSunday = 0 ∨ w.week_start = firstDayOfMonth y w.month) ∧
    (w.week_end.numDaysFromSunday = 6 ∨ w.week_end = lastDayOfMonth y w.month) ∧
    (w.week_start.numDaysFromSunday = 0 ∨ w.week_end.numDaysFromSunday = 6) ∧
    w.week_start.le w.week_end ∧
    w.week_start.year = y ∧ w.week_start.month = w.month ∧
    w.week_end.year = y ∧ w.week_end.month = w.month := by
  obtain ⟨i, m, m1, m2, hmon, hnum, hsv, hev, hst, het, hsd, hed, r0, u1, u2, u3, u4⟩ :=
    segment_shape hw
  obtain ⟨wb1, wb2, wb3, wb4, wb5, wb6, wb7⟩ := window_bounds y
  have hms := monthStart_succ_ge y m m1 m2
  have h13 := monthStart_13 y
  have hm13 : monthStart y (m + 1) ≤ daysInYear y := by
    have := monthStart_le y (m := m + 1) (k := 13) (by omega) (by omega) (by omega)
    omega
  have hyearS : w.week_start.year = y :=
    (Date.year_eq_iff hsv).mpr ⟨by rw [hst]; omega, by rw [hst]; omega⟩
  have hyearE : w.week_end.year = y :=
    (Date.year_eq_iff hev).mpr ⟨by rw [het]; omega, by rw [het]; omega⟩
  have hmonS : w.week_start.month = m := by
    refine Date.month_eq hsv m1 m2 ?_ ?_ <;> rw [hyearS, hst] <;> omega
  have hmonE : w.week_end.month = m := by
    refine Date.month_eq hev m1 m2 ?_ ?_ <;> rw [hyearE, het] <;> omega
  refine ⟨?_, ?_, ?_, ?_, hyearS, by rw [hmonS, hmon], hyearE, by rw [hmonE, hmon]⟩
  · rcases hsd with h | h
    · left
      unfold Date.numDaysFromSunday
      rw [h, windowStart_toRD]
      omega
    · right
      rw [hmon]
      exact h
  · rcases hed with h | h
    · left
      unfold Date.numDaysFromSunday
      rw [h, Date.addDays_toRD, windowStart_toRD]
      omega
    · right
      rw [hmon]
      exact h
  · by_cases hc : w.week_start.numDaysFromSunday = 0
    · left
      exact hc
    · right
      unfold Date.numDaysFromSunday at hc ⊢
      rw [hst] at hc
      rw [het]
      omega
  · refine (Date.le_iff_toRD hsv hev).mpr ?_
    rw [hst, het]
    omega

/-- C4: in partition order, `week_number` is non-decreasing, and every
segment's `week_number` equals
`(previous_sunday(week_start) - previous_sunday(Jan 1 of week_start.year)) / 7 + 1`
(in particular sibling segments of one 7-day window share a `week_number`). -/
theorem c4_week_numbering (y : ℤ) :
    List.Pairwise (fun a b => a.week_number ≤ b.week_number)
        (partition_year_into_month_weeks y) ∧
    ∀ w ∈ partition_year_into_month_weeks y,
      (w.week_number : ℤ) =
        ((previous_sunday w.week_start).sub
          (previous_sunday (fromYmd w.week_start.year 1 1))) / 7 + 1 := by
  refine ⟨pairwise_week_number y, ?_⟩
  intro w hw
  obtain ⟨i, m, m1, m2, hmon, hnum, hsv, hev, hst, het, hsd, hed, r0, u1, u2, u3, u4⟩ :=
    segment_shape hw
  obtain ⟨wb1, wb2, wb3, wb4, wb5, wb6, wb7⟩ := window_bounds y
  have hms := monthStart_succ_ge y m m1 m2
  have h13 := monthStart_13 y
  have hm13 : monthStart y (m + 1) ≤ daysInYear y := by
    have := monthStart_le y (m := m + 1) (k := 13) (by omega) (by omega) (by omega)
    omega
  have hyearS : w.week_start.year = y :=
    (Date.year_eq_iff hsv).mpr ⟨by rw [hst]; omega, by rw [hst]; omega⟩
  rw [hyearS]
  have hanch : previous_sunday (fromYmd y 1 1) = anchorWeekStart y := rfl
  rw [hanch]
  unfold Date.sub
  rw [previous_sunday_toRD, hst, hnum]
  push_cast
  omega

/-! ## month_weeks and the resolver -/

theorem mem_month_weeks {y : ℤ} {mm : ℕ} {w : MonthWeek} :
    w ∈ month_weeks y mm ↔ w ∈ partition_year_into_month_weeks y ∧ w.month = mm := by
  unfold month_weeks
  rw [List.mem_filter]
  simp [beq_iff_eq]

/-- C2: for every valid date `D`, `month_week_for_date(D)` succeeds, returning a
segment with `week_start <= D <= week_end` and `month = D.month` that is a
member of `month_weeks(D.year, D.month)`; the `NotFound` branch is never taken. -/
theorem c2_resolver_total (d : Date) (hv : d.Valid) :
    ∃ w, month_week_for_date d = some w ∧ w.week_start.le d ∧ d.le w.week_end ∧
      w.month = d.month ∧ w ∈ month_weeks d.year d.month := by
  have hd : d ∈ (partition_year_into_month_weeks d.year).flatMap MonthWeek.dates := by
    have hc := partition_count d.year d
    rw [if_pos ⟨hv, rfl⟩] at hc
    exact List.count_pos_iff.mp (by omega)
  rcases List.mem_flatMap.mp hd with ⟨w0, hw0, hdw0⟩
  rcases mem_dates_iff.mp hdw0 with ⟨_, hlo, hhi⟩
  obtain ⟨i, m, m1, m2, hmon, hnum, hsv, hev, hst, het, hsd, hed, r0, u1, u2, u3, u4⟩ :=
    segment_shape hw0
  have hms := monthStart_succ_ge d.year m m1 m2
  have hdm : d.month = m := by
    refine Date.month_eq hv m1 m2 ?_ ?_
    · rw [hst] at hlo
      omega
    · rw [het] at hhi
      omega
  have hp0 : (decide (w0.week_start.le d) && decide (d.le w0.week_end)) = true := by
    rw [Bool.and_eq_true, decide_eq_true_iff, decide_eq_true_iff]
    exact ⟨(Date.le_iff_toRD hsv hv).mpr hlo, (Date.le_iff_toRD hv hev).mpr hhi⟩
  have hw0m : w0 ∈ month_weeks d.year d.month :=
    mem_month_weeks.mpr ⟨hw0, by omega⟩
  have hex : ∃ x ∈ month_weeks d.year d.month,
      (fun w => decide (w.week_start.le d) && decide (d.le w.week_end)) x = true :=
    ⟨w0, hw0m, hp0⟩
  obtain ⟨w, hfind⟩ := Option.isSome_iff_exists.mp (List.find?_isSome.mpr hex)
  have hpw := List.find?_some hfind
  have hwmem := List.mem_of_find?_eq_some hfind
  rw [Bool.and_eq_true, decide_eq_true_iff, decide_eq_true_iff] at hpw
  exact ⟨w, hfind, hpw.1, hpw.2, (mem_month_weeks.mp hwmem).2, hwmem⟩

/-! ## ynab.rs data model -/

structure SubTransaction where
  amount : ℤ
  payee_name : Option String
  category_name : Option String
deriving DecidableEq

structure Transaction where
  id : String
  date : Date
  amount : ℤ
  payee_name : Option String
  category_name : Option String
  subtransactions : List SubTransaction
deriving DecidableEq

structure Category where
  id : String
  name : String
  category_group_name : Option String
  budgeted : ℤ
  balance : ℤ
  goal_cadence : Option ℤ
  goal_target : Option ℤ
  hidden : Bool
deriving DecidableEq

structure CategoryGroup where
  id : String
  name : String
  hidden : Bool
  deleted : Bool
  categories : List Category
deriving DecidableEq

/-! ## report.rs

Data frames are modelled row-major.  The watch set (`HashSet<String>`) is a
`Finset String`; the watch list (`IndexMap<String, String>`) is an association
list in insertion order.  Rust's byte-lexicographic `String` order coincides
with codepoint order, modelled on the `List Char` backing the `String`. -/

/-- Rust/polars string order (`a < b` byte-lexicographically). -/
def strLt (a b : String) : Prop := a.data < b.data

instance : DecidableRel strLt :=
  fun a b => inferInstanceAs (Decidable (a.data < b.data))

/-- `get_missing_category_groups` (the returned `HashSet` is a `Finset`). -/
def get_missing_category_groups (groups : List CategoryGroup)
    (watch_list : List (String × String)) : Finset String :=
  ((watch_list.map Prod.fst).filter
    (fun name => !((groups.map (fun g => g.name)).contains name))).toFinset

/-- `get_categories_to_watch`. -/
def get_categories_to_watch (groups : List CategoryGroup)
    (watch_list : List (String × String)) : List Category :=
  ((groups.filter (fun g => (watch_list.map Prod.fst).contains g.name)).flatMap
    (fun g => g.categories)).filter (fun c => !c.hidden)

/-- `date_to_polars_days`. -/
def date_to_polars_days (date : Date) : ℤ := date.sub (fromYmd 1970 1 1)

/-- A row of the transactions frame (`TransactionRow`); `amount` is already in
display units. -/
structure TransactionRow where
  date : Date
  amount : ℚ
  payee_name : Option String
  category_name : String
deriving DecidableEq

/-- `expand_transaction`. -/
def expand_transaction (txn : Transaction) : List TransactionRow :=
  if txn.subtransactions ≠ [] then
    txn.subtransactions.filterMap (fun sub =>
      sub.category_name.map (fun cat_name =>
        { date := txn.date
          amount := (sub.amount : ℚ) / 1000
          payee_name := sub.payee_name.or txn.payee_name
          category_name := cat_name }))
  else
    match txn.category_name with
    | some cat_name =>
      [{ date := txn.date
         amount := (txn.amount : ℚ) / 1000
         payee_name := txn.payee_name
         category_name := cat_name }]
    | none => []

/-- `transactions_to_polars` (row content of the `TransactionFrame`; the
`date` column stores `date_to_polars_days` of each row's date). -/
def transactions_to_polars (transactions : List Transaction) : List TransactionRow :=
  transactions.flatMap expand_transaction

/-- A row of the categories frame built by `categories_to_polars`. -/
structure CatRow where
  category_name : String
  category_group_name : String
  budgeted : ℚ
  balance : ℚ
  goal_cadence : String
deriving DecidableEq

/-- `categories_to_polars`. -/
def categories_to_polars (categories : List Category) : List CatRow :=
  categories.map (fun c =>
    { category_name := c.name
      category_group_name := c.category_group_name.getD "Uncategorized"
      budgeted := (c.budgeted : ℚ) / 1000
      balance := (c.balance : ℚ) / 1000
      goal_cadence :=
        if c.goal_target.isSome ∧ c.goal_cadence = some (1 : ℤ) then "monthly"
        else "annual" })

/-- `relevant_transactions`: polars filters on the date column cast to days. -/
def relevant_transactions (tf : List TransactionRow) (start_date end_date : Date) :
    List TransactionRow :=
  tf.filter (fun r =>
    decide (date_to_polars_days start_date ≤ date_to_polars_days r.date) &&
    decide (date_to_polars_days r.date ≤ date_to_polars_days end_date))

structure ReportRow where
  category_group_name : String
  category_name : String
  budgeted : ℚ
  spent : ℚ
  balance : ℚ
  goal_cadence : String
deriving DecidableEq

/-- The sort key of `build_report_table`: ascending
`(category_group_name, category_name)`, case-sensitive. -/
def reportRowLe (a b : ReportRow) : Prop :=
  strLt a.category_group_name b.category_group_name ∨
    (a.category_group_name = b.category_group_name ∧
      (strLt a.category_name b.category_name ∨ a.category_name = b.category_name))

instance : DecidableRel reportRowLe := fun a b =>
  inferInstanceAs (Decidable (strLt a.category_group_name b.category_group_name ∨
    (a.category_group_name = b.category_group_name ∧
      (strLt a.category_name b.category_name ∨ a.category_name = b.category_name))))

/-- The `total_spent` sub-query of `build_report_table`: filter to watched
names, group by `category_name`, sum `amount`. -/
def total_spent (txrows : List TransactionRow) (category_names : Finset String) :
    List (String × ℚ) :=
  let filtered := txrows.filter (fun r => decide (r.category_name ∈ category_names))
  ((filtered.map (fun r => r.category_name)).dedup).map (fun c =>
    (c, ((filtered.filter (fun r => r.category_name = c)).map (fun r => r.amount)).sum))

/-- `build_report_table`: left-join `total_spent` onto the categories frame,
fill null `spent` with 0, select, and sort. -/
def build_report_table (categories : List CatRow) (transactions : List TransactionRow)
    (category_names : Finset String) : List ReportRow :=
  let ts := total_spent transactions category_names
  let joined := categories.map (fun c =>
    { category_group_name := c.category_group_name
      category_name := c.category_name
      budgeted := c.budgeted
      spent := (ts.lookup c.category_name).getD 0
      balance := c.balance
      goal_cadence := c.goal_cadence : ReportRow })
  List.insertionSort reportRowLe joined

structure GroupTotalRow where
  category_group_name : String
  budgeted : ℚ
  spent : ℚ
  balance : ℚ
deriving DecidableEq

/-- The sort key of the group-totals table: ascending group name. -/
def groupRowLe (a b : GroupTotalRow) : Prop :=
  strLt a.category_group_name b.category_group_name ∨
    a.category_group_name = b.category_group_name

instance : DecidableRel groupRowLe := fun a b =>
  inferInstanceAs (Decidable (strLt a.category_group_name b.category_group_name ∨
    a.category_group_name = b.category_group_name))

/-- `build_category_group_totals_table`. -/
def build_category_group_totals_table (report_table : List ReportRow) :
    List GroupTotalRow :=
  let keys := (report_table.map (fun r => r.category_group_name)).dedup
  let group_totals := List.insertionSort groupRowLe (keys.map (fun g =>
    { category_group_name := g
      budgeted := ((report_table.filter
          (fun r => r.category_group_name = g)).map (fun r => r.budgeted)).sum
      spent := ((report_table.filter
          (fun r => r.category_group_name = g)).map (fun r => r.spent)).sum
      balance := ((report_table.filter
          (fun r => r.category_group_name = g)).map (fun r => r.balance)).sum }))
  let overall_total : GroupTotalRow :=
    { category_group_name := "Total"
      budgeted := (report_table.map (fun r => r.budgeted)).sum
      spent := (report_table.map (fun r => r.spent)).sum
      balance := (report_table.map (fun r => r.balance)).sum }
  group_totals ++ [overall_total]

/-- The spec's reference value for C6: the sum of display-unit amounts of all
expanded transaction rows with the given category name and date inside the
window (inclusive). -/
def windowSpend (txns : List Transaction) (s e : Date) (n : String) : ℚ :=
  (((txns.flatMap expand_transaction).filter
    (fun x => decide (x.category_name = n) && decide (s.le x.date) &&
      decide (x.date.le e))).map (fun r => r.amount)).sum

/-! ## C5: transaction expansion -/

theorem filterMap_option_map_eq {α β γ : Type} (l : List α) (get : α → Option γ)
    (mk : α → γ → β) (dflt : γ) :
    l.filterMap (fun s => (get s).map (mk s))
      = (l.filter (fun s => (get s).isSome)).map (fun s => mk s ((get s).getD dflt)) := by
  induction l with
  | nil => rfl
  | cons a t ih =>
    cases h : get a with
    | none => simp [List.filterMap_cons, List.filter_cons, h, ih]
    | some c => simp [List.filterMap_cons, List.filter_cons, h, ih]

/-- C5: a transaction with subtransactions yields exactly one row per
categorized subtransaction (parent date, own amount `/1000`, payee falling back
from the subtransaction to the parent) and none for uncategorized ones; a
transaction without subtransactions yields one row from its own fields when it
has a category and no row otherwise. -/
theorem c5_expand_transaction (t : Transaction) :
    (t.subtransactions ≠ [] →
      expand_transaction t
        = (t.subtransactions.filter (fun s => s.category_name.isSome)).map (fun s =>
          { date := t.date
            amount := (s.amount : ℚ) / 1000
            payee_name := s.payee_name.or t.payee_name
            category_name := s.category_name.getD "" })) ∧
    (t.subtransactions = [] → t.category_name = none → expand_transaction t = []) ∧
    (∀ c, t.subtransactions = [] → t.category_name = some c →
      expand_transaction t
        = [{ date := t.date
             amount := (t.amount : ℚ) / 1000
             payee_name := t.payee_name
             category_name := c }]) := by
  refine ⟨?_, ?_, ?_⟩
  · intro hne
    rw [expand_transaction, if_pos hne]
    exact filterMap_option_map_eq t.subtransactions (fun s => s.category_name)
      (fun s cat_name =>
        ({ date := t.date
           amount := (s.amount : ℚ) / 1000
           payee_name := s.payee_name.or t.payee_name
           category_name := cat_name } : TransactionRow)) ""
  · intro hsub hcat
    rw [expand_transaction, if_neg (by simp [hsub]), hcat]
  · intro c hsub hcat
    rw [expand_transaction, if_neg (by simp [hsub]), hcat]

/-! ## C8: category flattening -/

/-- C8: `categories_to_polars` derives `budgeted/1000`, `balance/1000`, the
cadence label `"monthly"` exactly when a goal target is present and the goal
cadence is 1 (`"annual"` otherwise), and the group name `"Uncategorized"` when
absent, for every category row. -/
theorem c8_category_flattening (cats : List Category) (i : ℕ) (hi : i < cats.length) :
    ∃ hfr : i < (categories_to_polars cats).length,
      ((categories_to_polars cats).get ⟨i, hfr⟩).category_name
          = (cats.get ⟨i, hi⟩).name ∧
      ((categories_to_polars cats).get ⟨i, hfr⟩).category_group_name
          = ((cats.get ⟨i, hi⟩).category_group_name).getD "Uncategorized" ∧
      ((categories_to_polars cats).get ⟨i, hfr⟩).budgeted
          = ((cats.get ⟨i, hi⟩).budgeted : ℚ) / 1000 ∧
      ((categories_to_polars cats).get ⟨i, hfr⟩).balance
          = ((cats.get ⟨i, hi⟩).balance : ℚ) / 1000 ∧
      (((categories_to_polars cats).get ⟨i, hfr⟩).goal_cadence = "monthly" ↔
        (cats.get ⟨i, hi⟩).goal_target.isSome ∧
          (cats.get ⟨i, hi⟩).goal_cadence = some (1 : ℤ)) ∧
      (((categories_to_polars cats).get ⟨i, hfr⟩).goal_cadence = "monthly" ∨
        ((categories_to_polars cats).get ⟨i, hfr⟩).goal_cadence = "annual") := by
  have hlen : (categories_to_polars cats).length = cats.length :=
    List.length_map _ _
  have hfr : i < (categories_to_polars cats).length := by omega
  have hrow : (categories_to_polars cats).get ⟨i, hfr⟩ =
      ({ category_name := (cats.get ⟨i, hi⟩).name
         category_group_name := ((cats.get ⟨i, hi⟩).category_group_name).getD "Uncategorized"
         budgeted := ((cats.get ⟨i, hi⟩).budgeted : ℚ) / 1000
         balance := ((cats.get ⟨i, hi⟩).balance : ℚ) / 1000
         goal_cadence :=
           if (cats.get ⟨i, hi⟩).goal_target.isSome ∧
               (cats.get ⟨i, hi⟩).goal_cadence = some (1 : ℤ)
           then "monthly" else "annual" } : CatRow) := by
    rw [List.get_eq_getElem, List.get_eq_getElem]
    exact List.getElem_map _
  refine ⟨hfr, ?_, ?_, ?_, ?_, ?_, ?_⟩
  all_goals rw [hrow]
  · by_cases hP : (cats.get ⟨i, hi⟩).goal_target.isSome ∧
        (cats.get ⟨i, hi⟩).goal_cadence = some (1 : ℤ)
    · rw [if_pos hP]
      exact ⟨fun _ => hP, fun _ => rfl⟩
    · rw [if_neg hP]
      constructor
      · intro hbad
        exact absurd hbad (show ¬(("annual" : String) = "monthly") from by decide)
      · intro hp
        exact absurd hp hP
  · by_cases hP : (cats.get ⟨i, hi⟩).goal_target.isSome ∧
        (cats.get ⟨i, hi⟩).goal_cadence = some (1 : ℤ)
    · left
      rw [if_pos hP]
    · right
      rw [if_neg hP]

/-! ## C9 and C10: watch-list resolution -/

/-- C9: `get_missing_category_groups` is exactly the set of watch-list keys
matching no group name, and `get_categories_to_watch` is the group-order
flattening of the non-hidden categories of watched groups, duplicates
preserved. -/
theorem c9_watch_resolution (groups : List CategoryGroup)
    (watch_list : List (String × String)) :
    (∀ k : String, k ∈ get_missing_category_groups groups watch_list ↔
      k ∈ watch_list.map Prod.fst ∧ ∀ g ∈ groups, g.name ≠ k) ∧
    get_categories_to_watch groups watch_list =
      (groups.filter (fun g => (watch_list.map Prod.fst).contains g.name)).flatMap
        (fun g => g.categories.filter (fun c => !c.hidden)) ∧
    (∀ c : Category, (get_categories_to_watch groups watch_list).count c =
      ((groups.filter (fun g => (watch_list.map Prod.fst).contains g.name)).map
        (fun g => (g.categories.filter (fun c2 => !c2.hidden)).count c)).sum) := by
  have hflat : get_categories_to_watch groups watch_list =
      (groups.filter (fun g => (watch_list.map Prod.fst).contains g.name)).flatMap
        (fun g => g.categories.filter (fun c => !c.hidden)) := by
    unfold get_categories_to_watch
    rw [List.filter_flatMap]
  refine ⟨?_, hflat, ?_⟩
  · intro k
    unfold get_missing_category_groups
    rw [List.mem_toFinset, List.mem_filter]
    constructor
    · rintro ⟨hk, hnc⟩
      refine ⟨hk, ?_⟩
      intro g hg hgk
      have hnm : k ∉ groups.map (fun g2 => g2.name) := by simpa using hnc
      exact hnm (List.mem_map.mpr ⟨g, hg, hgk⟩)
    · rintro ⟨hk, hng⟩
      refine ⟨hk, ?_⟩
      have hnm : k ∉ groups.map (fun g2 => g2.name) := by
        intro hmem
        rcases List.mem_map.mp hmem with ⟨g, hg, hgk⟩
        exact hng g hg hgk
      simpa using hnm
  · intro c
    rw [hflat, List.count_flatMap]
    rfl

/-- C10: watch-list matching is by name only: a watched group's `hidden` and
`deleted` flags are ignored, so such a group is never reported missing and its
non-hidden categories are still included. -/
theorem c10_group_flags_ignored (groups : List CategoryGroup)
    (watch_list : List (String × String)) (g : CategoryGroup)
    (hg : g ∈ groups) (hk : g.name ∈ watch_list.map Prod.fst)
    (_hflag : g.hidden = true ∨ g.deleted = true) :
    g.name ∉ get_missing_category_groups groups watch_list ∧
    ∀ c ∈ g.categories, c.hidden = false →
      c ∈ get_categories_to_watch groups watch_list := by
  constructor
  · intro hmem
    unfold get_missing_category_groups at hmem
    rw [List.mem_toFinset, List.mem_filter] at hmem
    obtain ⟨_, hnc⟩ := hmem
    have hnm : g.name ∉ groups.map (fun g2 => g2.name) := by simpa using hnc
    exact hnm (List.mem_map.mpr ⟨g, hg, rfl⟩)
  · intro c hc hch
    unfold get_categories_to_watch
    rw [List.mem_filter]
    constructor
    · rw [List.mem_flatMap]
      refine ⟨g, ?_, hc⟩
      rw [List.mem_filter]
      refine ⟨hg, ?_⟩
      simpa using hk
    · rw [hch]
      rfl

/-! ## String order facts and sort-relation instances -/

theorem strLt_trans {a b c : String} (h1 : strLt a b) (h2 : strLt b c) : strLt a c :=
  lt_trans h1 h2

theorem strLt_total (a b : String) : strLt a b ∨ a = b ∨ strLt b a := by
  rcases lt_trichotomy a.data b.data with h | h | h
  · exact Or.inl h
  · right
    left
    cases a
    cases b
    exact congrArg String.mk h
  · right
    right
    exact h

instance : IsTrans ReportRow reportRowLe := by
  constructor
  intro a b c hab hbc
  rcases hab with h1 | ⟨e1, h1n⟩
  · rcases hbc with h2 | ⟨e2, _⟩
    · exact Or.inl (strLt_trans h1 h2)
    · exact Or.inl (e2 ▸ h1)
  · rcases hbc with h2 | ⟨e2, h2n⟩
    · exact Or.inl (by rw [e1]; exact h2)
    · right
      refine ⟨e1.trans e2, ?_⟩
      rcases h1n with hn1 | en1
      · rcases h2n with hn2 | en2
        · exact Or.inl (strLt_trans hn1 hn2)
        · exact Or.inl (en2 ▸ hn1)
      · rcases h2n with hn2 | en2
        · exact Or.inl (by rw [en1]; exact hn2)
        · exact Or.inr (en1.trans en2)

instance : IsTotal ReportRow reportRowLe := by
  constructor
  intro a b
  rcases strLt_total a.category_group_name b.category_group_name with h | h | h
  · exact Or.inl (Or.inl h)
  · rcases strLt_total a.category_name b.category_name with h2 | h2 | h2
    · exact Or.inl (Or.inr ⟨h, Or.inl h2⟩)
    · exact Or.inl (Or.inr ⟨h, Or.inr h2⟩)
    · exact Or.inr (Or.inr ⟨h.symm, Or.inl h2⟩)
  · exact Or.inr (Or.inl h)

instance : IsTrans GroupTotalRow groupRowLe := by
  constructor
  intro a b c hab hbc
  rcases hab with h1 | e1
  · rcases hbc with h2 | e2
    · exact Or.inl (strLt_trans h1 h2)
    · exact Or.inl (e2 ▸ h1)
  · rcases hbc with h2 | e2
    · exact Or.inl (by rw [e1]; exact h2)
    · exact Or.inr (e1.trans e2)

instance : IsTotal GroupTotalRow groupRowLe := by
  constructor
  intro a b
  rcases strLt_total a.category_group_name b.category_group_name with h | h | h
  · exact Or.inl (Or.inl h)
  · exact Or.inl (Or.inr h)
  · exact Or.inr (Or.inl h)

/-! ## C7: group totals -/

/-- C7: every group name of the report table appears in the totals table with
the elementwise sums of its report rows; the synthetic `"Total"` row carries
the whole-table sums and is always last; the group rows are sorted ascending
by group name (and carry pairwise-distinct group names). -/
theorem c7_group_totals (report : List ReportRow) :
    (∀ g ∈ report.map (fun r => r.category_group_name),
      ({ category_group_name := g
         budgeted := ((report.filter (fun r => r.category_group_name = g)).map
             (fun r => r.budgeted)).sum
         spent := ((report.filter (fun r => r.category_group_name = g)).map
             (fun r => r.spent)).sum
         balance := ((report.filter (fun r => r.category_group_name = g)).map
             (fun r => r.balance)).sum } : GroupTotalRow)
        ∈ build_category_group_totals_table report) ∧
    (build_category_group_totals_table report).getLast? = some
      { category_group_name := "Total"
        budgeted := (report.map (fun r => r.budgeted)).sum
        spent := (report.map (fun r => r.spent)).sum
        balance := (report.map (fun r => r.balance)).sum } ∧
    List.Sorted groupRowLe (build_category_group_totals_table report).dropLast ∧
    ((build_category_group_totals_table report).dropLast.map
      (fun r => r.category_group_name)).Nodup := by
  refine ⟨?_, ?_, ?_, ?_⟩
  · intro g hgmem
    show _ ∈ _ ++ _
    apply List.mem_append_left
    rw [(List.perm_insertionSort groupRowLe _).mem_iff]
    exact List.mem_map.mpr ⟨g, List.mem_dedup.mpr hgmem, rfl⟩
  · exact List.getLast?_concat _
  · show List.Sorted groupRowLe (_ ++ [_]).dropLast
    rw [List.dropLast_concat]
    exact List.sorted_insertionSort groupRowLe _
  · show (((_ ++ [_]).dropLast).map _).Nodup
    rw [List.dropLast_concat]
    have hperm :
        ((List.insertionSort groupRowLe
            (((report.map (fun r => r.category_group_name)).dedup).map (fun g =>
              ({ category_group_name := g
                 budgeted := ((report.filter (fun r => r.category_group_name = g)).map
                     (fun r => r.budgeted)).sum
                 spent := ((report.filter (fun r => r.category_group_name = g)).map
                     (fun r => r.spent)).sum
                 balance := ((report.filter (fun r => r.category_group_name = g)).map
                     (fun r => r.balance)).sum } : GroupTotalRow)))).map
          (fun r => r.category_group_name)).Perm
          ((((report.map (fun r => r.category_group_name)).dedup).map (fun g =>
            ({ category_group_name := g
               budgeted := ((report.filter (fun r => r.category_group_name = g)).map
                   (fun r => r.budgeted)).sum
               spent := ((report.filter (fun r => r.category_group_name = g)).map
                   (fun r => r.spent)).sum
               balance := ((report.filter (fun r => r.category_group_name = g)).map
                   (fun r => r.balance)).sum } : GroupTotalRow))).map
            (fun r => r.category_group_name)) :=
      (List.perm_insertionSort groupRowLe _).map _
    refine hperm.nodup_iff.mpr ?_
    rw [List.map_map]
    refine List.Nodup.map_on ?_ (List.nodup_dedup _)
    intro x _ y _ hxy
    exact hxy

/-! ## C6: spend sums -/

theorem expand_transaction_date {t : Transaction} {r : TransactionRow}
    (hr : r ∈ expand_transaction t) : r.date = t.date := by
  rw [expand_transaction] at hr
  split at hr
  · rcases List.mem_filterMap.mp hr with ⟨sub, _, hmap⟩
    rcases Option.map_eq_some'.mp hmap with ⟨c, _, rfl⟩
    rfl
  · split at hr
    · rw [List.mem_singleton] at hr
      rw [hr]
    · exact absurd hr (List.not_mem_nil _)

theorem transactions_to_polars_valid {txns : List Transaction}
    (hdv : ∀ t ∈ txns, t.date.Valid) :
    ∀ r ∈ transactions_to_polars txns, r.date.Valid := by
  intro r hr
  rcases List.mem_flatMap.mp hr with ⟨t, ht, hrt⟩
  rw [expand_transaction_date hrt]
  exact hdv t ht

theorem date_to_polars_days_le {a b : Date} (ha : a.Valid) (hb : b.Valid) :
    date_to_polars_days a ≤ date_to_polars_days b ↔ a.le b := by
  unfold date_to_polars_days Date.sub
  rw [Date.le_iff_toRD ha hb]
  omega

theorem relevant_transactions_eq {rows : List TransactionRow} {s e : Date}
    (hs : s.Valid) (he : e.Valid) (hv : ∀ r ∈ rows, r.date.Valid) :
    relevant_transactions rows s e
      = rows.filter (fun r => decide (s.le r.date) && decide (r.date.le e)) := by
  unfold relevant_transactions
  apply List.filter_congr
  intro r hr
  rw [decide_eq_decide.mpr (date_to_polars_days_le hs (hv r hr)),
    decide_eq_decide.mpr (date_to_polars_days_le (hv r hr) he)]

theorem lookup_map_self (l : List String) (f : String → ℚ) (n : String) :
    (l.map (fun c => (c, f c))).lookup n = if n ∈ l then some (f n) else none := by
  induction l with
  | nil => simp
  | cons a t ih =>
    rw [List.map_cons, List.lookup_cons]
    by_cases hn : n = a
    · subst hn
      simp
    · have hbeq : (n == a) = false := by simpa using hn
      rw [hbeq]
      show List.lookup n (t.map fun c => (c, f c)) = _
      rw [ih]
      by_cases hm : n ∈ t
      · rw [if_pos hm, if_pos (List.mem_cons.mpr (Or.inr hm))]
      · rw [if_neg hm, if_neg (by simp [List.mem_cons, hn, hm])]

theorem total_spent_getD (txrows : List TransactionRow) (names : Finset String)
    (n : String) :
    ((total_spent txrows names).lookup n).getD 0
      = (((txrows.filter (fun r => decide (r.category_name ∈ names))).filter
          (fun r => decide (r.category_name = n))).map (fun r => r.amount)).sum := by
  simp only [total_spent]
  rw [lookup_map_self]
  split
  · rfl
  · rename_i hmem
    have hnil : ((txrows.filter (fun r => decide (r.category_name ∈ names))).filter
        (fun r => decide (r.category_name = n))) = [] := by
      rw [List.filter_eq_nil_iff]
      intro r hr hrn
      apply hmem
      rw [List.mem_dedup]
      exact List.mem_map.mpr ⟨r, hr, by simpa using hrn⟩
    rw [hnil]
    rfl

theorem build_spent_eq (txns : List Transaction) (s e : Date) (names : Finset String)
    (hs : s.Valid) (he : e.Valid) (hdv : ∀ t ∈ txns, t.date.Valid) (n : String) :
    ((total_spent (relevant_transactions (transactions_to_polars txns) s e)
        names).lookup n).getD 0
      = if n ∈ names then windowSpend txns s e n else 0 := by
  rw [total_spent_getD,
    relevant_transactions_eq hs he (transactions_to_polars_valid hdv),
    List.filter_filter, List.filter_filter]
  unfold transactions_to_polars
  by_cases hn : n ∈ names
  · rw [if_pos hn]
    unfold windowSpend
    apply congrArg List.sum
    apply congrArg (List.map _)
    apply List.filter_congr
    intro r _
    by_cases hc : r.category_name = n
    · simp [hc, hn]
    · simp [hc]
  · rw [if_neg hn]
    have hnil : ((txns.flatMap expand_transaction).filter
        (fun a => decide (a.category_name = n) && decide (a.category_name ∈ names) &&
            (decide (Date.le s a.date) && decide (Date.le a.date e)))) = [] := by
      rw [List.filter_eq_nil_iff]
      intro r _ hbool
      rw [Bool.and_eq_true, Bool.and_eq_true] at hbool
      obtain ⟨⟨h1, h2⟩, _⟩ := hbool
      rw [decide_eq_true_iff] at h1 h2
      rw [h1] at h2
      exact hn h2
    rw [hnil]
    rfl

/-- C6: in the report table built from the window-filtered transactions, every
watched category's `spent` equals the display-unit sum of its expanded
transaction rows inside the window; every category of the input frame yields
exactly one row (a watched category with no activity gets `spent = 0` and is
not dropped); and the rows are sorted ascending by
`(category_group_name, category_name)`, case-sensitively. -/
theorem c6_spend_sums (cats : List Category) (txns : List Transaction) (s e : Date)
    (names : Finset String) (hs : s.Valid) (he : e.Valid)
    (hdv : ∀ t ∈ txns, t.date.Valid) :
    (build_report_table (categories_to_polars cats)
        (relevant_transactions (transactions_to_polars txns) s e) names).Perm
      (cats.map (fun c =>
        ({ category_group_name := c.category_group_name.getD "Uncategorized"
           category_name := c.name
           budgeted := (c.budgeted : ℚ) / 1000
           spent := if c.name ∈ names then windowSpend txns s e c.name else 0
           balance := (c.balance : ℚ) / 1000
           goal_cadence := if c.goal_target.isSome ∧ c.goal_cadence = some (1 : ℤ)
             then "monthly" else "annual" } : ReportRow))) ∧
    List.Sorted reportRowLe (build_report_table (categories_to_polars cats)
        (relevant_transactions (transactions_to_polars txns) s e) names) ∧
    (∀ r ∈ build_report_table (categories_to_polars cats)
        (relevant_transactions (transactions_to_polars txns) s e) names,
      r.category_name ∈ names → r.spent = windowSpend txns s e r.category_name) := by
  refine ⟨?_, ?_, ?_⟩
  · simp only [build_report_table]
    refine (List.perm_insertionSort _ _).trans ?_
    apply List.Perm.of_eq
    rw [categories_to_polars, List.map_map]
    apply List.map_congr_left
    intro c _
    show ({ category_group_name := _, category_name := _, budgeted := _,
            spent := _, balance := _, goal_cadence := _ } : ReportRow) = _
    rw [build_spent_eq txns s e names hs he hdv c.name]
  · simp only [build_report_table]
    exact List.sorted_insertionSort _ _
  · intro r hr hrn
    simp only [build_report_table] at hr
    rw [(List.perm_insertionSort _ _).mem_iff] at hr
    rcases List.mem_map.mp hr with ⟨cr, _, rfl⟩
    show ((total_spent (relevant_transactions (transactions_to_polars txns) s e)
        names).lookup cr.category_name).getD 0 = _
    rw [build_spent_eq txns s e names hs he hdv cr.category_name]
    rw [if_pos hrn]

/-! ## Concrete witnesses -/

/-- Witness for the resolver claim at 2024-03-13 (ordinal 72 of 2024). -/
theorem c2_witness :
    ∃ w, month_week_for_date ⟨2024, 72⟩ = some w ∧
      w.week_start.le ⟨2024, 72⟩ ∧ Date.le ⟨2024, 72⟩ w.week_end ∧
      w.month = (⟨2024, 72⟩ : Date).month ∧
      w ∈ month_weeks (⟨2024, 72⟩ : Date).year (⟨2024, 72⟩ : Date).month :=
  c2_resolver_total ⟨2024, 72⟩ (by decide)

/-- Witness for the boundary invariant at the first segment of 2024. -/
theorem c3_witness :
    ((⟨1, ⟨2024, 0⟩, ⟨2024, 5⟩, 1⟩ : MonthWeek).week_start.numDaysFromSunday = 0 ∨
      (⟨1, ⟨2024, 0⟩, ⟨2024, 5⟩, 1⟩ : MonthWeek).week_start
        = firstDayOfMonth 2024 (⟨1, ⟨2024, 0⟩, ⟨2024, 5⟩, 1⟩ : MonthWeek).month) ∧
    ((⟨1, ⟨2024, 0⟩, ⟨2024, 5⟩, 1⟩ : MonthWeek).week_end.numDaysFromSunday = 6 ∨
      (⟨1, ⟨2024, 0⟩, ⟨2024, 5⟩, 1⟩ : MonthWeek).week_end
        = lastDayOfMonth 2024 (⟨1, ⟨2024, 0⟩, ⟨2024, 5⟩, 1⟩ : MonthWeek).month) ∧
    ((⟨1, ⟨2024, 0⟩, ⟨2024, 5⟩, 1⟩ : MonthWeek).week_start.numDaysFromSunday = 0 ∨
      (⟨1, ⟨2024, 0⟩, ⟨2024, 5⟩, 1⟩ : MonthWeek).week_end.numDaysFromSunday = 6) ∧
    (⟨1, ⟨2024, 0⟩, ⟨2024, 5⟩, 1⟩ : MonthWeek).week_start.le
      (⟨1, ⟨2024, 0⟩, ⟨2024, 5⟩, 1⟩ : MonthWeek).week_end ∧
    (⟨1, ⟨2024, 0⟩, ⟨2024, 5⟩, 1⟩ : MonthWeek).week_start.year = 2024 ∧
    (⟨1, ⟨2024, 0⟩, ⟨2024, 5⟩, 1⟩ : MonthWeek).week_start.month
      = (⟨1, ⟨2024, 0⟩, ⟨2024, 5⟩, 1⟩ : MonthWeek).month ∧
    (⟨1, ⟨2024, 0⟩, ⟨2024, 5⟩, 1⟩ : MonthWeek).week_end.year = 2024 ∧
    (⟨1, ⟨2024, 0⟩, ⟨2024, 5⟩, 1⟩ : MonthWeek).week_end.month
      = (⟨1, ⟨2024, 0⟩, ⟨2024, 5⟩, 1⟩ : MonthWeek).month :=
  c3_boundary_invariant 2024 ⟨1, ⟨2024, 0⟩, ⟨2024, 5⟩, 1⟩ (by decide)

/-- Witness for the week-number formula at the first segment of 2024. -/
theorem c4_witness :
    ((⟨1, ⟨2024, 0⟩, ⟨2024, 5⟩, 1⟩ : MonthWeek).week_number : ℤ) =
      ((previous_sunday (⟨1, ⟨2024, 0⟩, ⟨2024, 5⟩, 1⟩ : MonthWeek).week_start).sub
        (previous_sunday
          (fromYmd (⟨1, ⟨2024, 0⟩, ⟨2024, 5⟩, 1⟩ : MonthWeek).week_start.year 1 1))) / 7
        + 1 :=
  (c4_week_numbering 2024).2 ⟨1, ⟨2024, 0⟩, ⟨2024, 5⟩, 1⟩ (by decide)

/-- Witness for transaction expansion: two subtransactions, one uncategorized. -/
theorem c5_witness :
    expand_transaction
        ⟨"t", ⟨2024, 100⟩, -5000, some "Store", none,
          [⟨-2000, none, some "Groceries"⟩, ⟨-3000, some "Cafe", none⟩]⟩
      = ((⟨"t", ⟨2024, 100⟩, -5000, some "Store", none,
          [⟨-2000, none, some "Groceries"⟩, ⟨-3000, some "Cafe", none⟩]⟩ :
            Transaction).subtransactions.filter
          (fun s => s.category_name.isSome)).map (fun s =>
        { date := (⟨"t", ⟨2024, 100⟩, -5000, some "Store", none,
            [⟨-2000, none, some "Groceries"⟩, ⟨-3000, some "Cafe", none⟩]⟩ :
              Transaction).date
          amount := (s.amount : ℚ) / 1000
          payee_name := s.payee_name.or (⟨"t", ⟨2024, 100⟩, -5000, some "Store", none,
            [⟨-2000, none, some "Groceries"⟩, ⟨-3000, some "Cafe", none⟩]⟩ :
              Transaction).payee_name
          category_name := s.category_name.getD "" }) :=
  (c5_expand_transaction
    ⟨"t", ⟨2024, 100⟩, -5000, some "Store", none,
      [⟨-2000, none, some "Groceries"⟩, ⟨-3000, some "Cafe", none⟩]⟩).1 (by decide)

/-- Witness for the spend-sum claim on the Groceries example. -/
theorem c6_witness :
    (build_report_table
        (categories_to_polars
          [⟨"id1", "Groceries", some "Essentials", 50000, 31500, some 1, some 600000,
            false⟩])
        (relevant_transactions
          (transactions_to_polars
            [⟨"t1", ⟨2024, 100⟩, -18500, some "Store", some "Groceries", []⟩])
          ⟨2024, 95⟩ ⟨2024, 105⟩)
        (["Groceries"] : List String).toFinset).Perm
      (([⟨"id1", "Groceries", some "Essentials", 50000, 31500, some 1, some 600000,
          false⟩] : List Category).map (fun c =>
        ({ category_group_name := c.category_group_name.getD "Uncategorized"
           category_name := c.name
           budgeted := (c.budgeted : ℚ) / 1000
           spent :=
             if c.name ∈ (["Groceries"] : List String).toFinset then
               windowSpend
                 [⟨"t1", ⟨2024, 100⟩, -18500, some "Store", some "Groceries", []⟩]
                 ⟨2024, 95⟩ ⟨2024, 105⟩ c.name
             else 0
           balance := (c.balance : ℚ) / 1000
           goal_cadence := if c.goal_target.isSome ∧ c.goal_cadence = some (1 : ℤ)
             then "monthly" else "annual" } : ReportRow))) ∧
    List.Sorted reportRowLe
      (build_report_table
        (categories_to_polars
          [⟨"id1", "Groceries", some "Essentials", 50000, 31500, some 1, some 600000,
            false⟩])
        (relevant_transactions
          (transactions_to_polars
            [⟨"t1", ⟨2024, 100⟩, -18500, some "Store", some "Groceries", []⟩])
          ⟨2024, 95⟩ ⟨2024, 105⟩)
        (["Groceries"] : List String).toFinset) ∧
    (∀ r ∈ build_report_table
        (categories_to_polars
          [⟨"id1", "Groceries", some "Essentials", 50000, 31500, some 1, some 600000,
            false⟩])
        (relevant_transactions
          (transactions_to_polars
            [⟨"t1", ⟨2024, 100⟩, -18500, some "Store", some "Groceries", []⟩])
          ⟨2024, 95⟩ ⟨2024, 105⟩)
        (["Groceries"] : List String).toFinset,
      r.category_name ∈ (["Groceries"] : List String).toFinset →
        r.spent = windowSpend
          [⟨"t1", ⟨2024, 100⟩, -18500, some "Store", some "Groceries", []⟩]
          ⟨2024, 95⟩ ⟨2024, 105⟩ r.category_name) :=
  c6_spend_sums
    [⟨"id1", "Groceries", some "Essentials", 50000, 31500, some 1, some 600000, false⟩]
    [⟨"t1", ⟨2024, 100⟩, -18500, some "Store", some "Groceries", []⟩]
    ⟨2024, 95⟩ ⟨2024, 105⟩ (["Groceries"] : List String).toFinset
    (by decide) (by decide) (by decide)

/-- Witness for the group-totals claim on a one-row report table. -/
theorem c7_witness :
    ({ category_group_name := "Essentials"
       budgeted := ((([⟨"Essentials", "Groceries", 50, -37/2, 63/2, "monthly"⟩] :
           List ReportRow).filter
           (fun r => r.category_group_name = "Essentials")).map
           (fun r => r.budgeted)).sum
       spent := ((([⟨"Essentials", "Groceries", 50, -37/2, 63/2, "monthly"⟩] :
           List ReportRow).filter
           (fun r => r.category_group_name = "Essentials")).map
           (fun r => r.spent)).sum
       balance := ((([⟨"Essentials", "Groceries", 50, -37/2, 63/2, "monthly"⟩] :
           List ReportRow).filter
           (fun r => r.category_group_name = "Essentials")).map
           (fun r => r.balance)).sum } : GroupTotalRow)
      ∈ build_category_group_totals_table
        [⟨"Essentials", "Groceries", 50, -37/2, 63/2, "monthly"⟩] :=
  (c7_group_totals [⟨"Essentials", "Groceries", 50, -37/2, 63/2, "monthly"⟩]).1
    "Essentials" (by decide)

/-- Witness for category flattening on the Groceries example. -/
theorem c8_witness :
    ∃ hfr : 0 < (categories_to_polars
        [⟨"id1", "Groceries", some "Essentials", 50000, 31500, some 1, some 600000,
          false⟩]).length,
      ((categories_to_polars
        [⟨"id1", "Groceries", some "Essentials", 50000, 31500, some 1, some 600000,
          false⟩]).get ⟨0, hfr⟩).category_name
          = (([⟨"id1", "Groceries", some "Essentials", 50000, 31500, some 1, some 600000,
              false⟩] : List Category).get ⟨0, by decide⟩).name ∧
      ((categories_to_polars
        [⟨"id1", "Groceries", some "Essentials", 50000, 31500, some 1, some 600000,
          false⟩]).get ⟨0, hfr⟩).category_group_name
          = (([⟨"id1", "Groceries", some "Essentials", 50000, 31500, some 1, some 600000,
              false⟩] : List Category).get
              ⟨0, by decide⟩).category_group_name.getD "Uncategorized" ∧
      ((categories_to_polars
        [⟨"id1", "Groceries", some "Essentials", 50000, 31500, some 1, some 600000,
          false⟩]).get ⟨0, hfr⟩).budgeted
          = ((([⟨"id1", "Groceries", some "Essentials", 50000, 31500, some 1,
              some 600000, false⟩] : List Category).get ⟨0, by decide⟩).budgeted : ℚ)
            / 1000 ∧
      ((categories_to_polars
        [⟨"id1", "Groceries", some "Essentials", 50000, 31500, some 1, some 600000,
          false⟩]).get ⟨0, hfr⟩).balance
          = ((([⟨"id1", "Groceries", some "Essentials", 50000, 31500, some 1,
              some 600000, false⟩] : List Category).get ⟨0, by decide⟩).balance : ℚ)
            / 1000 ∧
      (((categories_to_polars
        [⟨"id1", "Groceries", some "Essentials", 50000, 31500, some 1, some 600000,
          false⟩]).get ⟨0, hfr⟩).goal_cadence = "monthly" ↔
        (([⟨"id1", "Groceries", some "Essentials", 50000, 31500, some 1, some 600000,
            false⟩] : List Category).get ⟨0, by decide⟩).goal_target.isSome ∧
          (([⟨"id1", "Groceries", some "Essentials", 50000, 31500, some 1, some 600000,
              false⟩] : List Category).get ⟨0, by decide⟩).goal_cadence
            = some (1 : ℤ)) ∧
      (((categories_to_polars
        [⟨"id1", "Groceries", some "Essentials", 50000, 31500, some 1, some 600000,
          false⟩]).get ⟨0, hfr⟩).goal_cadence = "monthly" ∨
        ((categories_to_polars
          [⟨"id1", "Groceries", some "Essentials", 50000, 31500, some 1, some 600000,
            false⟩]).get ⟨0, hfr⟩).goal_cadence = "annual") :=
  c8_category_flattening
    [⟨"id1", "Groceries", some "Essentials", 50000, 31500, some 1, some 600000, false⟩]
    0 (by decide)

/-- Witness for watch-list resolution: a configured group absent from the
fetched groups is reported missing. -/
theorem c9_witness :
    ("Essentials" : String) ∈ get_missing_category_groups
      [⟨"gid", "Fun", false, false, []⟩] [("Essentials", "hint")] :=
  ((c9_watch_resolution [⟨"gid", "Fun", false, false, []⟩]
    [("Essentials", "hint")]).1 "Essentials").mpr ⟨by decide, by decide⟩

/-- Witness for flag-independence: a hidden watched group still contributes. -/
theorem c10_witness :
    ("Essentials" : String) ∉ get_missing_category_groups
        [⟨"gid", "Essentials", true, false,
          [⟨"cid", "Groceries", some "Essentials", 0, 0, none, none, false⟩]⟩]
        [("Essentials", "hint")] ∧
    ∀ c ∈ (⟨"gid", "Essentials", true, false,
        [⟨"cid", "Groceries", some "Essentials", 0, 0, none, none, false⟩]⟩ :
          CategoryGroup).categories,
      c.hidden = false →
        c ∈ get_categories_to_watch
          [⟨"gid", "Essentials", true, false,
            [⟨"cid", "Groceries", some "Essentials", 0, 0, none, none, false⟩]⟩]
          [("Essentials", "hint")] :=
  c10_group_flags_ignored
    [⟨"gid", "Essentials", true, false,
      [⟨"cid", "Groceries", some "Essentials", 0, 0, none, none, false⟩]⟩]
    [("Essentials", "hint")]
    ⟨"gid", "Essentials", true, false,
      [⟨"cid", "Groceries", some "Essentials", 0, 0, none, none, false⟩]⟩
    (by decide) (by decide) (Or.inl rfl)

end Crustynab
